import Mathlib

/-!
# QtAV `VideoRenderer`: geometry, coordinate mapping, filter slots, colour adjustment

A shallow embedding of `src/VideoRenderer.cpp`.

* The private data `VideoRendererPrivate` (the `d` pointer) becomes a record and every
  member function a function on that record.
* `int` is `Int`; the sizes met here are far from the 32-bit limits and no theorem relies
  on wrap-around.
* `qreal` is modelled by the exact rationals `ℚ`.  In `ℚ` a quotient with denominator `0`
  is `0`, whereas IEEE arithmetic yields an infinity or a NaN; statements that speak about
  a quotient therefore carry a non-zero denominator as hypothesis, or do not mention the
  quotient at all.
* Calls to virtual hooks and collaborators (`resizeFrame`, `widget()->update()`, ...) are
  recorded, in order, in the ghost field `trace`.
* Pointers to filters are `Option Nat`: `none` is the null pointer, `some i` the object
  with identity `i`.
-/

namespace QtAV

/-! ## Qt value types -/

/-- Conversion of a `qreal` to `int` as C++ does it: truncation towards zero. -/
def toInt (q : ℚ) : Int := Int.tdiv q.num q.den

/-- Qt `qRound(qreal)`:
`d >= 0.0 ? int(d + 0.5) : int(d - double(int(d-1)) + 0.5) + int(d-1)`. -/
def qRound (d : ℚ) : Int :=
  if 0 ≤ d then toInt (d + 1/2) else toInt (d - (toInt (d - 1) : ℚ) + 1/2) + toInt (d - 1)

/-- Qt `qMax(a, b)`: `(a < b) ? b : a`. -/
def qMax (a b : ℚ) : ℚ := if a < b then b else a

/-- Qt `qAbs(t)`: `t >= 0 ? t : -t`. -/
def qAbs (t : ℚ) : ℚ := if 0 ≤ t then t else -t

/-- Qt `QRect`: an integer rectangle stored as its top-left and bottom-right corners. -/
structure QRect where
  x1 : Int
  y1 : Int
  x2 : Int
  y2 : Int
  deriving DecidableEq

namespace QRect

/-- The constructor `QRect(left, top, width, height)`. -/
def mk4 (left top width height : Int) : QRect :=
  ⟨left, top, left + width - 1, top + height - 1⟩

/-- The constructor `QRect(QPoint(), size)`. -/
def ofSize (width height : Int) : QRect := mk4 0 0 width height

def x (r : QRect) : Int := r.x1
def y (r : QRect) : Int := r.y1
def width (r : QRect) : Int := r.x2 - r.x1 + 1
def height (r : QRect) : Int := r.y2 - r.y1 + 1

/-- The member `setX`: moves the left edge, the right edge stays. -/
def setX (r : QRect) (v : Int) : QRect := { r with x1 := v }

/-- The member `setY`: moves the top edge, the bottom edge stays. -/
def setY (r : QRect) (v : Int) : QRect := { r with y1 := v }

/-- The member `setWidth`: moves the right edge. -/
def setWidth (r : QRect) (w : Int) : QRect := { r with x2 := r.x1 + w - 1 }

/-- The member `setHeight`: moves the bottom edge. -/
def setHeight (r : QRect) (h : Int) : QRect := { r with y2 := r.y1 + h - 1 }

end QRect

/-- Qt `QPointF`. -/
structure QPointF where
  xp : ℚ
  yp : ℚ
  deriving DecidableEq

namespace QPointF

def add (a b : QPointF) : QPointF := ⟨a.xp + b.xp, a.yp + b.yp⟩
def sub (a b : QPointF) : QPointF := ⟨a.xp - b.xp, a.yp - b.yp⟩
def mul (a : QPointF) (c : ℚ) : QPointF := ⟨a.xp * c, a.yp * c⟩
def div (a : QPointF) (c : ℚ) : QPointF := ⟨a.xp / c, a.yp / c⟩

end QPointF

/-- Qt `QRectF`: a rectangle stored as origin and extent. -/
structure QRectF where
  xp : ℚ
  yp : ℚ
  w : ℚ
  h : ℚ
  deriving DecidableEq

namespace QRectF

/-- The member `isValid`: `w > 0. && h > 0.`. -/
def isValid (r : QRectF) : Bool := decide (0 < r.w) && decide (0 < r.h)

/-- The member `toRect`: `QRect(qRound(xp), qRound(yp), qRound(w), qRound(h))`. -/
def toRect (r : QRectF) : QRect := QRect.mk4 (qRound r.xp) (qRound r.yp) (qRound r.w) (qRound r.h)

/-- The converting constructor `QRectF(const QRect &)`. -/
def ofRect (r : QRect) : QRectF := ⟨r.x, r.y, r.width, r.height⟩

/-- The member `center`: `QPointF(xp + w/2, yp + h/2)`. -/
def center (r : QRectF) : QPointF := ⟨r.xp + r.w / 2, r.yp + r.h / 2⟩

end QRectF

/-! ## Renderer state -/

/-- The enum `VideoRenderer::OutAspectRatioMode`. -/
inductive OutAspectRatioMode
  | RendererAspectRatio
  | VideoAspectRatio
  | CustomAspectRation
  deriving DecidableEq

/-- A pointer to a `Filter`; `none` is the null pointer. -/
abbrev FilterPtr := Option Nat

/-- The calls the renderer makes on virtual hooks and collaborators. -/
inductive Call
  | resizeFrame (width height : Int)
  | widgetUpdate
  | graphicsItemUpdate
  | setupQuality
  | drawBackground
  | drawFrame
  | pendingTasks
  | process (filter : Nat)
  deriving DecidableEq

/-- The part of a `VideoFrame` the renderer looks at. -/
structure VideoFrame where
  width : Int
  height : Int
  valid : Bool
  deriving DecidableEq

/-- The private data of `VideoRenderer` (`VideoRendererPrivate` with the members of
`AVOutputPrivate` that `VideoRenderer.cpp` uses), extended by the ghost `trace` and by
`has_widget` / `has_graphics_item`, which say whether `widget()` / `graphicsItem()` are
non-null. -/
structure VideoRendererPrivate where
  update_background : Bool
  renderer_width : Int
  renderer_height : Int
  source_aspect_ratio : ℚ
  src_width : Int
  src_height : Int
  aspect_ratio_changed : Bool
  out_aspect_ratio_mode : OutAspectRatioMode
  out_aspect_ratio : ℚ
  out_rect : QRect
  roi : QRectF
  video_frame : VideoFrame
  filters : List FilterPtr
  osd_filter : FilterPtr
  subtitle_filter : FilterPtr
  filter_context : Bool
  statistics : Bool
  brightness : ℚ
  contrast : ℚ
  hue : ℚ
  saturation : ℚ
  has_widget : Bool
  has_graphics_item : Bool
  trace : List Call
  deriving DecidableEq

/-- Appends one call to the ghost trace. -/
def emit (d : VideoRendererPrivate) (c : Call) : VideoRendererPrivate :=
  { d with trace := d.trace ++ [c] }

/-- The virtual `VideoRenderer::resizeFrame`: the body is empty, the call is recorded. -/
def resizeFrame (d : VideoRendererPrivate) (width height : Int) : VideoRendererPrivate :=
  emit d (Call.resizeFrame width height)

/-! ## Geometry -/

/-- Modelled from the spec: the rectangle that `VideoRendererPrivate::computeOutParameters`
(defined in the private header, which is not among the sources) stores.  Section 4.1: the
call "recomputes `outRect` to the largest rectangle of the requested ratio that fits
centered within the surface rectangle (letterbox/pillarbox policy — scale to fit one axis
exactly, center the other axis's remaining gap)".  The rectangle has integer edges, so the
scaled extent is converted to `int` and the gap is halved by integer division. -/
def fitRect (W H : Int) (outAspectRatio : ℚ) : QRect :=
  let rendererAspectRatio : ℚ := (W : ℚ) / (H : ℚ)
  if outAspectRatio ≤ rendererAspectRatio then
    let h := H
    let w := toInt (outAspectRatio * (h : ℚ))
    QRect.mk4 (Int.tdiv (W - w) 2) 0 w h
  else
    let w := W
    let h := toInt ((w : ℚ) / outAspectRatio)
    QRect.mk4 0 (Int.tdiv (H - h) 2) w h

/-- Modelled from the spec: `VideoRendererPrivate::computeOutParameters(qreal)`, missing
from the sources like `fitRect`; by section 4.1 it recomputes `outRect`, and nothing else,
from the surface size and the requested ratio. -/
def computeOutParameters (d : VideoRendererPrivate) (outAspectRatio : ℚ) :
    VideoRendererPrivate :=
  { d with out_rect := fitRect d.renderer_width d.renderer_height outAspectRatio }

/-- `VideoRenderer::setOutAspectRatio(qreal ratio)`. -/
def setOutAspectRatio (d : VideoRendererPrivate) (ratio : ℚ) : VideoRendererPrivate :=
  let ratio_changed : Bool := decide (d.out_aspect_ratio ≠ ratio)
  let d := { d with out_aspect_ratio := ratio }
  let d := if !d.aspect_ratio_changed then
      { d with out_aspect_ratio_mode := OutAspectRatioMode.CustomAspectRation }
    else d
  let d := { d with aspect_ratio_changed := false }
  let d := if d.out_aspect_ratio_mode ≠ OutAspectRatioMode.RendererAspectRatio then
      { d with update_background := true }
    else d
  let d := computeOutParameters d ratio
  if ratio_changed then resizeFrame d d.out_rect.width d.out_rect.height else d

/-- `VideoRenderer::setOutAspectRatioMode(OutAspectRatioMode mode)`. -/
def setOutAspectRatioMode (d : VideoRendererPrivate) (mode : OutAspectRatioMode) :
    VideoRendererPrivate :=
  if mode = d.out_aspect_ratio_mode then d
  else
    let d := { d with aspect_ratio_changed := true }
    let d := { d with out_aspect_ratio_mode := mode }
    if mode = OutAspectRatioMode.RendererAspectRatio then
      let d := { d with out_rect := QRect.mk4 1 0 d.renderer_width d.renderer_height }
      setOutAspectRatio d ((d.renderer_width : ℚ) / (d.renderer_height : ℚ))
    else if mode = OutAspectRatioMode.VideoAspectRatio then
      setOutAspectRatio d d.source_aspect_ratio
    else d

/-- `VideoRenderer::outAspectRatioMode()`. -/
def outAspectRatioMode (d : VideoRendererPrivate) : OutAspectRatioMode :=
  d.out_aspect_ratio_mode

/-- `VideoRenderer::outAspectRatio()`. -/
def outAspectRatio (d : VideoRendererPrivate) : ℚ := d.out_aspect_ratio

/-- `VideoRenderer::setInSize(int width, int height)`. -/
def setInSize (d : VideoRendererPrivate) (width height : Int) : VideoRendererPrivate :=
  let d := if d.src_width ≠ width ∨ d.src_height ≠ height then
      { d with aspect_ratio_changed := true }
    else d
  if !d.aspect_ratio_changed then d
  else
    let d := { d with src_width := width }
    let d := { d with src_height := height }
    let d := { d with source_aspect_ratio := (d.src_width : ℚ) / (d.src_height : ℚ) }
    let d := if d.out_aspect_ratio_mode = OutAspectRatioMode.VideoAspectRatio then
        setOutAspectRatio d d.source_aspect_ratio
      else d
    { d with aspect_ratio_changed := false }

/-- `VideoRenderer::resizeRenderer(int width, int height)`. -/
def resizeRenderer (d : VideoRendererPrivate) (width height : Int) : VideoRendererPrivate :=
  if width = 0 ∨ height = 0 then d
  else
    let d := { d with renderer_width := width }
    let d := { d with renderer_height := height }
    let d := computeOutParameters d d.out_aspect_ratio
    resizeFrame d d.out_rect.width d.out_rect.height

/-- `VideoRenderer::rendererWidth()`. -/
def rendererWidth (d : VideoRendererPrivate) : Int := d.renderer_width

/-- `VideoRenderer::rendererHeight()`. -/
def rendererHeight (d : VideoRendererPrivate) : Int := d.renderer_height

/-- `VideoRenderer::videoRect()`. -/
def videoRect (d : VideoRendererPrivate) : QRect := d.out_rect

/-! ## Region of interest and coordinate mapping -/

/-- `VideoRenderer::realROI()`.  The last test is written `qAbs(d.roi.height() < 1)` in the
source: `qAbs` is applied to the outcome of the comparison, so the branch is taken exactly
when `height < 1`. -/
def realROI (d : VideoRendererPrivate) : QRect :=
  if !d.roi.isValid then QRect.ofSize d.video_frame.width d.video_frame.height
  else
    let r := d.roi.toRect
    let r := if qAbs d.roi.xp ≤ 1 then r.setX (toInt (d.roi.xp * (d.src_width : ℚ))) else r
    let r := if qAbs d.roi.yp ≤ 1 then r.setY (toInt (d.roi.yp * (d.src_height : ℚ))) else r
    let r := if qAbs d.roi.w < 1 then r.setWidth (toInt (d.roi.w * (d.src_width : ℚ))) else r
    let r := if d.roi.h < 1 then r.setHeight (toInt (d.roi.h * (d.src_height : ℚ))) else r
    r

/-- The zoom factor both mapping functions compute:
`qMax(roi.width()/rendererWidth(), roi.height()/rendererHeight())`. -/
def zoom (d : VideoRendererPrivate) : ℚ :=
  let roi := QRectF.ofRect (realROI d)
  qMax (roi.w / (rendererWidth d : ℚ)) (roi.h / (rendererHeight d : ℚ))

/-- The point `QPointF(rendererWidth()/2, rendererHeight()/2)`; the halving is done on
`int`. -/
def rendererCenter (d : VideoRendererPrivate) : QPointF :=
  ⟨(Int.tdiv (rendererWidth d) 2 : Int), (Int.tdiv (rendererHeight d) 2 : Int)⟩

/-- `VideoRenderer::mapToFrame(const QPointF &p)`. -/
def mapToFrame (d : VideoRendererPrivate) (p : QPointF) : QPointF :=
  let roi := QRectF.ofRect (realROI d)
  let delta := p.sub (rendererCenter d)
  roi.center.add (delta.mul (zoom d))

/-- `VideoRenderer::mapFromFrame(const QPointF &p)`. -/
def mapFromFrame (d : VideoRendererPrivate) (p : QPointF) : QPointF :=
  let roi := QRectF.ofRect (realROI d)
  let delta := p.sub roi.center
  (rendererCenter d).add (delta.div (zoom d))

/-! ## Filter slots -/

/-- `QList::lastIndexOf(value)`: the index of the last occurrence; `none` stands for the
result `-1`. -/
def lastIndexOf : List FilterPtr → FilterPtr → Option Nat
  | [], _ => none
  | x :: xs, f =>
    match lastIndexOf xs f with
    | some i => some (i + 1)
    | none => if x = f then some 0 else none

/-- The body shared, line for line, by `setOSDFilter` and `setSubtitleFilter` after the
slot itself has been overwritten: the update of `d.filters`. -/
def updateFilters (filters : List FilterPtr) (old filter : FilterPtr) : List FilterPtr :=
  match lastIndexOf filters old with
  | some idx =>
    if filter.isSome then filters.set idx filter
    else filters.eraseIdx idx
  | none =>
    if filter.isSome then filters ++ [filter]
    else filters

/-- `VideoRenderer::setOSDFilter(OSDFilter *filter)`; the second component is the
returned pointer. -/
def setOSDFilter (d : VideoRendererPrivate) (filter : FilterPtr) :
    VideoRendererPrivate × FilterPtr :=
  let old := d.osd_filter
  if old = filter then (d, old)
  else
    let d := { d with osd_filter := filter }
    ({ d with filters := updateFilters d.filters old filter }, old)

/-- `VideoRenderer::setSubtitleFilter(Filter *filter)`; the second component is the
returned pointer. -/
def setSubtitleFilter (d : VideoRendererPrivate) (filter : FilterPtr) :
    VideoRendererPrivate × FilterPtr :=
  let old := d.subtitle_filter
  if old = filter then (d, old)
  else
    let d := { d with subtitle_filter := filter }
    ({ d with filters := updateFilters d.filters old filter }, old)

/-- A call of one of the two slot setters. -/
inductive SlotCall
  | osd (filter : FilterPtr)
  | subtitle (filter : FilterPtr)
  deriving DecidableEq

/-- Runs one slot call and drops the returned pointer. -/
def SlotCall.run (d : VideoRendererPrivate) : SlotCall → VideoRendererPrivate
  | SlotCall.osd f => (setOSDFilter d f).1
  | SlotCall.subtitle f => (setSubtitleFilter d f).1

/-- Runs a finite sequence of slot calls, first call first. -/
def runSlotCalls (d : VideoRendererPrivate) (cs : List SlotCall) : VideoRendererPrivate :=
  cs.foldl SlotCall.run d

/-- The renderer has an empty filter chain and both slots unset. -/
def NoFilters (d : VideoRendererPrivate) : Prop :=
  d.filters = [] ∧ d.osd_filter = none ∧ d.subtitle_filter = none

instance (d : VideoRendererPrivate) : Decidable (NoFilters d) := by
  unfold NoFilters; infer_instance

/-! ## Colour adjustment -/

/-- The four virtual hooks `onChangingBrightness`, `onChangingContrast`, `onChangingHue`
and `onChangingSaturation`, which a renderer back-end overrides. -/
structure Hooks where
  onChangingBrightness : ℚ → Bool
  onChangingContrast : ℚ → Bool
  onChangingHue : ℚ → Bool
  onChangingSaturation : ℚ → Bool

/-- The hooks as `VideoRenderer` itself defines them: each returns `false`. -/
def defaultHooks : Hooks :=
  ⟨fun _ => false, fun _ => false, fun _ => false, fun _ => false⟩

/-- The tail shared by the four setters: `if (widget()) widget()->update();
if (graphicsItem()) graphicsItem()->update();`. -/
def requestUpdate (d : VideoRendererPrivate) : VideoRendererPrivate :=
  let d := if d.has_widget then emit d Call.widgetUpdate else d
  if d.has_graphics_item then emit d Call.graphicsItemUpdate else d

/-- `VideoRenderer::setBrightness(qreal brightness)`. -/
def setBrightness (k : Hooks) (d : VideoRendererPrivate) (brightness : ℚ) :
    VideoRendererPrivate × Bool :=
  if !k.onChangingBrightness brightness then (d, false)
  else (requestUpdate { d with brightness := brightness }, true)

/-- `VideoRenderer::setContrast(qreal contrast)`. -/
def setContrast (k : Hooks) (d : VideoRendererPrivate) (contrast : ℚ) :
    VideoRendererPrivate × Bool :=
  if !k.onChangingContrast contrast then (d, false)
  else (requestUpdate { d with contrast := contrast }, true)

/-- `VideoRenderer::setHue(qreal hue)`. -/
def setHue (k : Hooks) (d : VideoRendererPrivate) (hue : ℚ) :
    VideoRendererPrivate × Bool :=
  if !k.onChangingHue hue then (d, false)
  else (requestUpdate { d with hue := hue }, true)

/-- `VideoRenderer::setSaturation(qreal saturation)`. -/
def setSaturation (k : Hooks) (d : VideoRendererPrivate) (saturation : ℚ) :
    VideoRendererPrivate × Bool :=
  if !k.onChangingSaturation saturation then (d, false)
  else (requestUpdate { d with saturation := saturation }, true)

/-- Hooks of a back-end that supports every adjustment value. -/
def acceptAll : Hooks :=
  ⟨fun _ => true, fun _ => true, fun _ => true, fun _ => true⟩

/-- The four stored adjustment values: brightness, contrast, hue, saturation. -/
def adjustments (d : VideoRendererPrivate) : ℚ × ℚ × ℚ × ℚ :=
  (d.brightness, d.contrast, d.hue, d.saturation)

/-! ## A concrete renderer -/

/-- A concrete renderer to which no frame has been delivered: source size `0 × 0`, surface
`480 × 320`, mode `VideoAspectRatio`, `aspect_ratio_changed` set, no filters, no widget. -/
def fresh : VideoRendererPrivate where
  update_background := true
  renderer_width := 480
  renderer_height := 320
  source_aspect_ratio := 0
  src_width := 0
  src_height := 0
  aspect_ratio_changed := true
  out_aspect_ratio_mode := OutAspectRatioMode.VideoAspectRatio
  out_aspect_ratio := 0
  out_rect := QRect.mk4 0 0 0 0
  roi := ⟨0, 0, 0, 0⟩
  video_frame := ⟨0, 0, false⟩
  filters := []
  osd_filter := none
  subtitle_filter := none
  filter_context := false
  statistics := false
  brightness := 0
  contrast := 0
  hue := 0
  saturation := 0
  has_widget := false
  has_graphics_item := false
  trace := []

/-- A renderer showing a 1920 × 1080 source on a 480 × 320 surface in mode
`VideoAspectRatio`. -/
def playing : VideoRendererPrivate :=
  { fresh with
    src_width := 1920, src_height := 1080, source_aspect_ratio := 16 / 9,
    out_aspect_ratio := 16 / 9, aspect_ratio_changed := false,
    out_rect := QRect.mk4 0 25 480 270,
    video_frame := ⟨1920, 1080, true⟩ }

/-- The renderer `playing` after `setRegionOfInterest(0, 0, 1/4000, 1/4000)`: the region
is valid but smaller than a source pixel. -/
def tinyRoi : VideoRendererPrivate :=
  { playing with roi := ⟨0, 0, 1 / 4000, 1 / 4000⟩ }

/-- The renderer `playing` after `setRegionOfInterest(0, 0, 960, 540)`. -/
def quarterRoi : VideoRendererPrivate :=
  { playing with roi := ⟨0, 0, 960, 540⟩ }

/-- A renderer like `playing` whose stored surface height is 0. -/
def flat : VideoRendererPrivate :=
  { playing with renderer_height := 0 }

/-! ## Filter-slot predicates -/

/-- The chain that holds exactly the non-null ones of two references, in this order. -/
def chainOf (a b : FilterPtr) : List FilterPtr :=
  (if a.isSome then [a] else []) ++ (if b.isSome then [b] else [])

/-- The filter chain consists of the references held by the two slots, in one of the two
orders. -/
def SlotsFormChain (d : VideoRendererPrivate) : Prop :=
  d.filters = chainOf d.osd_filter d.subtitle_filter ∨
  d.filters = chainOf d.subtitle_filter d.osd_filter

/-- The chain `after` is the chain `before` with one entry equal to `f` taken out; the
other entries keep their positions relative to each other. -/
def RemovesOne (before after : List FilterPtr) (f : FilterPtr) : Prop :=
  after.length + 1 = before.length ∧
  ∃ idx, before[idx]? = some f ∧ after = before.eraseIdx idx

/-! ## Geometry predicates and call sequences -/

/-- The rectangle lies inside the surface `[0, W] × [0, H]` (and is not inverted). -/
def QRect.within (r : QRect) (W H : Int) : Prop :=
  0 ≤ r.x ∧ 0 ≤ r.y ∧ 0 ≤ r.width ∧ 0 ≤ r.height ∧ r.x + r.width ≤ W ∧ r.y + r.height ≤ H

/-- The width/height ratio of the rectangle is `ratio` up to the rounding of one pixel:
one extent is the other one scaled by `ratio` and rounded down by less than one pixel. -/
def QRect.hasRatio (r : QRect) (ratio : ℚ) : Prop :=
  (ratio * (r.height : ℚ) - 1 < (r.width : ℚ) ∧ (r.width : ℚ) ≤ ratio * (r.height : ℚ)) ∨
  ((r.width : ℚ) / ratio - 1 < (r.height : ℚ) ∧ (r.height : ℚ) ≤ (r.width : ℚ) / ratio)

/-- The output rectangle is inside the surface and has the stored aspect ratio. -/
def GeometryOK (d : VideoRendererPrivate) : Prop :=
  (videoRect d).within (rendererWidth d) (rendererHeight d) ∧
  (videoRect d).hasRatio (outAspectRatio d)

/-- Positive surface, positive stored ratios, and an output rectangle that is the one
fitted to the stored surface size and ratio. -/
def Settled (d : VideoRendererPrivate) : Prop :=
  0 < d.renderer_width ∧ 0 < d.renderer_height ∧ 0 < d.out_aspect_ratio ∧
  0 < d.source_aspect_ratio ∧
  d.out_rect = fitRect d.renderer_width d.renderer_height d.out_aspect_ratio

/-- A call of one of the four geometry operations. -/
inductive GeomCall
  | setInSize (width height : Int)
  | resizeRenderer (width height : Int)
  | setOutAspectRatioMode (mode : OutAspectRatioMode)
  | setOutAspectRatio (ratio : ℚ)

/-- The sizes and the ratio passed by the call are positive. -/
def GeomCall.positive : GeomCall → Prop
  | GeomCall.setInSize w h => 0 < w ∧ 0 < h
  | GeomCall.resizeRenderer w h => 0 < w ∧ 0 < h
  | GeomCall.setOutAspectRatioMode _ => True
  | GeomCall.setOutAspectRatio r => 0 < r

/-- Runs one geometry call. -/
def GeomCall.run (d : VideoRendererPrivate) : GeomCall → VideoRendererPrivate
  | GeomCall.setInSize w h => QtAV.setInSize d w h
  | GeomCall.resizeRenderer w h => QtAV.resizeRenderer d w h
  | GeomCall.setOutAspectRatioMode m => QtAV.setOutAspectRatioMode d m
  | GeomCall.setOutAspectRatio r => QtAV.setOutAspectRatio d r

/-- Runs a finite sequence of geometry calls, first call first. -/
def runGeomCalls (d : VideoRendererPrivate) (cs : List GeomCall) : VideoRendererPrivate :=
  cs.foldl GeomCall.run d

/-- The four geometry operations run once each: source size, surface size, an explicit
ratio, and finally the mode. -/
def geometrySetup (d : VideoRendererPrivate) (sourceW sourceH surfaceW surfaceH : Int)
    (ratio : ℚ) (mode : OutAspectRatioMode) : VideoRendererPrivate :=
  setOutAspectRatioMode
    (setOutAspectRatio (resizeRenderer (setInSize d sourceW sourceH) surfaceW surfaceH) ratio)
    mode

/-! ## Painting -/

/-- `VideoRenderer::needUpdateBackground()`. -/
def needUpdateBackground (d : VideoRendererPrivate) : Bool := d.update_background

/-- The virtual `VideoRenderer::drawBackground`: the body is empty, the call is recorded. -/
def drawBackground (d : VideoRendererPrivate) : VideoRendererPrivate :=
  emit d Call.drawBackground

/-- `VideoRenderer::needDrawFrame()`. -/
def needDrawFrame (d : VideoRendererPrivate) : Bool := d.video_frame.valid

/-- The virtual `VideoRenderer::drawFrame`, implemented by the back-ends: the call is
recorded. -/
def drawFrame (d : VideoRendererPrivate) : VideoRendererPrivate :=
  emit d Call.drawFrame

/-- The virtual `VideoRendererPrivate::setupQuality`: the call is recorded. -/
def setupQuality (d : VideoRendererPrivate) : VideoRendererPrivate :=
  emit d Call.setupQuality

/-- The inherited `hanlePendingTasks()` (spelled as in the source): the call is
recorded. -/
def hanlePendingTasks (d : VideoRendererPrivate) : VideoRendererPrivate :=
  emit d Call.pendingTasks

/-- The loop `foreach(Filter* filter, d.filters)` of `handlePaintEvent`: a null entry is
skipped with `continue`, every other entry gets `filter->process(...)`. -/
def processFilters (d : VideoRendererPrivate) : List FilterPtr → VideoRendererPrivate
  | [] => d
  | none :: fs => processFilters d fs
  | some f :: fs => processFilters (emit d (Call.process f)) fs

/-- `VideoRenderer::handlePaintEvent()`.  The mutex only delimits the first block and
does not appear in this sequential model. -/
def handlePaintEvent (d : VideoRendererPrivate) : VideoRendererPrivate :=
  let d := setupQuality d
  let d := if needUpdateBackground d then
      drawBackground { d with update_background := false }
    else d
  let d := if needDrawFrame d then drawFrame d else d
  let d := hanlePendingTasks d
  if !d.filters.isEmpty && d.filter_context && d.statistics then
    processFilters d d.filters
  else d

/-- The filters named by the `process` calls of a trace, in order. -/
def processCalls : List Call → List Nat
  | [] => []
  | Call.process f :: cs => f :: processCalls cs
  | _ :: cs => processCalls cs

/-- The calls recorded for the filter stage of one paint. -/
def filterStageCalls (d : VideoRendererPrivate) : List Call :=
  if !d.filters.isEmpty && d.filter_context && d.statistics then
    (d.filters.filterMap id).map Call.process
  else []

/-! ## Further concrete renderers -/

/-- The renderer `playing` after `setOutAspectRatioMode(CustomAspectRation)`. -/
def customMode : VideoRendererPrivate :=
  setOutAspectRatioMode playing OutAspectRatioMode.CustomAspectRation

/-- The renderer `playing` with a filter chain that holds a null entry followed by the
filter 7, both slots unset. -/
def withNull : VideoRendererPrivate :=
  { playing with filters := [none, some 7] }

/-- The renderer `playing` after `setRegionOfInterest(1, 1, 200, 100)`. -/
def unitRoi : VideoRendererPrivate :=
  { playing with roi := ⟨1, 1, 200, 100⟩ }

/-- The renderer `playing` after `setRegionOfInterest(1/2, 0, 200, 100)`. -/
def halfRoi : VideoRendererPrivate :=
  { playing with roi := ⟨1 / 2, 0, 200, 100⟩ }

/-- The renderer `playing` with a pending background update, the chain
`[1, null, 2]`, and a filter context and statistics. -/
def painting : VideoRendererPrivate :=
  { playing with
    update_background := true, filters := [some 1, none, some 2],
    filter_context := true, statistics := true }

/-- A direct call of `setOutAspectRatio` is recognised as such: `aspect_ratio_changed`
is clear, or the mode is `CustomAspectRation` already. -/
def UserCallRecognised (d : VideoRendererPrivate) : Prop :=
  d.aspect_ratio_changed = false ∨
  d.out_aspect_ratio_mode = OutAspectRatioMode.CustomAspectRation

/-! ## Conversion lemmas -/

theorem toInt_of_nonneg {q : ℚ} (h : 0 ≤ q) : toInt q = ⌊q⌋ := by
  unfold toInt
  rw [Int.tdiv_eq_ediv (Rat.num_nonneg.mpr h) (by positivity), Rat.floor_def]

theorem toInt_intCast (n : Int) : toInt (n : ℚ) = n := by
  simp [toInt]

theorem QRect.width_mk4 (l t w h : Int) : (QRect.mk4 l t w h).width = w := by
  simp only [QRect.mk4, QRect.width]
  omega

theorem QRect.height_mk4 (l t w h : Int) : (QRect.mk4 l t w h).height = h := by
  simp only [QRect.mk4, QRect.height]
  omega

theorem QRect.x_mk4 (l t w h : Int) : (QRect.mk4 l t w h).x = l := rfl

theorem QRect.y_mk4 (l t w h : Int) : (QRect.mk4 l t w h).y = t := rfl

theorem tdiv_two_bounds {n : Int} (h : 0 ≤ n) : 0 ≤ Int.tdiv n 2 ∧ Int.tdiv n 2 ≤ n := by
  rw [Int.tdiv_eq_ediv h (by norm_num)]
  omega

/-- The rectangle fitted for a positive ratio on a positive surface. -/
theorem fitRect_ok (W H : Int) (r : ℚ) (hW : 0 < W) (hH : 0 < H) (hr : 0 < r) :
    (fitRect W H r).within W H ∧ (fitRect W H r).hasRatio r := by
  have hHq : (0 : ℚ) < (H : ℚ) := by exact_mod_cast hH
  have hWq : (0 : ℚ) < (W : ℚ) := by exact_mod_cast hW
  unfold fitRect
  by_cases hc : r ≤ (W : ℚ) / (H : ℚ)
  · simp only [hc, if_true]
    have hnn : (0 : ℚ) ≤ r * (H : ℚ) := by positivity
    have hle : r * (H : ℚ) ≤ (W : ℚ) := by
      rwa [le_div_iff₀ hHq] at hc
    rw [toInt_of_nonneg hnn]
    have h0 : 0 ≤ ⌊r * (H : ℚ)⌋ := Int.floor_nonneg.mpr hnn
    have h1 : ⌊r * (H : ℚ)⌋ ≤ W := by
      have := Int.floor_le (r * (H : ℚ))
      exact_mod_cast (le_trans this hle)
    have hb := tdiv_two_bounds (sub_nonneg.mpr h1)
    refine ⟨?_, Or.inl ⟨?_, ?_⟩⟩
    · simp only [QRect.within, QRect.width_mk4, QRect.height_mk4, QRect.x_mk4, QRect.y_mk4]
      omega
    · simp only [QRect.width_mk4, QRect.height_mk4]
      have := Int.lt_floor_add_one (r * (H : ℚ))
      linarith
    · simp only [QRect.width_mk4, QRect.height_mk4]
      exact Int.floor_le _
  · simp only [hc, if_false]
    have hc2 : (W : ℚ) / (H : ℚ) < r := not_le.mp hc
    have hnn : (0 : ℚ) ≤ (W : ℚ) / r := by positivity
    have hlt : (W : ℚ) / r < (H : ℚ) := by
      rw [div_lt_iff₀ hr]
      rw [div_lt_iff₀ hHq] at hc2
      linarith
    rw [toInt_of_nonneg hnn]
    have h0 : 0 ≤ ⌊(W : ℚ) / r⌋ := Int.floor_nonneg.mpr hnn
    have h1 : ⌊(W : ℚ) / r⌋ ≤ H := by
      have := Int.floor_le ((W : ℚ) / r)
      exact_mod_cast (le_of_lt (lt_of_le_of_lt this hlt))
    have hb := tdiv_two_bounds (sub_nonneg.mpr h1)
    refine ⟨?_, Or.inr ⟨?_, ?_⟩⟩
    · simp only [QRect.within, QRect.width_mk4, QRect.height_mk4, QRect.x_mk4, QRect.y_mk4]
      omega
    · simp only [QRect.width_mk4, QRect.height_mk4]
      have := Int.lt_floor_add_one ((W : ℚ) / r)
      linarith
    · simp only [QRect.width_mk4, QRect.height_mk4]
      exact Int.floor_le _

/-- On a positive surface the surface's own ratio is fitted by the whole surface. -/
theorem fitRect_full (W H : Int) (hH : 0 < H) :
    fitRect W H ((W : ℚ) / (H : ℚ)) = QRect.mk4 0 0 W H := by
  have hHq : (H : ℚ) ≠ 0 := by exact_mod_cast hH.ne'
  unfold fitRect
  simp only [le_refl, if_true]
  rw [div_mul_cancel₀ _ hHq, toInt_intCast]
  simp

/-! ## Effect of `setOutAspectRatio` on the fields -/

theorem setOutAspectRatio_renderer_width (d : VideoRendererPrivate) (r : ℚ) :
    (setOutAspectRatio d r).renderer_width = d.renderer_width := by
  unfold setOutAspectRatio computeOutParameters resizeFrame emit
  dsimp only
  split_ifs <;> rfl

theorem setOutAspectRatio_renderer_height (d : VideoRendererPrivate) (r : ℚ) :
    (setOutAspectRatio d r).renderer_height = d.renderer_height := by
  unfold setOutAspectRatio computeOutParameters resizeFrame emit
  dsimp only
  split_ifs <;> rfl

theorem setOutAspectRatio_source_aspect_ratio (d : VideoRendererPrivate) (r : ℚ) :
    (setOutAspectRatio d r).source_aspect_ratio = d.source_aspect_ratio := by
  unfold setOutAspectRatio computeOutParameters resizeFrame emit
  dsimp only
  split_ifs <;> rfl

theorem setOutAspectRatio_out_aspect_ratio (d : VideoRendererPrivate) (r : ℚ) :
    (setOutAspectRatio d r).out_aspect_ratio = r := by
  unfold setOutAspectRatio computeOutParameters resizeFrame emit
  dsimp only
  split_ifs <;> rfl

theorem setOutAspectRatio_out_rect (d : VideoRendererPrivate) (r : ℚ) :
    (setOutAspectRatio d r).out_rect = fitRect d.renderer_width d.renderer_height r := by
  unfold setOutAspectRatio computeOutParameters resizeFrame emit
  dsimp only
  split_ifs <;> rfl

theorem setOutAspectRatio_aspect_ratio_changed (d : VideoRendererPrivate) (r : ℚ) :
    (setOutAspectRatio d r).aspect_ratio_changed = false := by
  unfold setOutAspectRatio computeOutParameters resizeFrame emit
  dsimp only
  split_ifs <;> rfl

theorem setOutAspectRatio_mode (d : VideoRendererPrivate) (r : ℚ) :
    (setOutAspectRatio d r).out_aspect_ratio_mode =
      if d.aspect_ratio_changed then d.out_aspect_ratio_mode
      else OutAspectRatioMode.CustomAspectRation := by
  unfold setOutAspectRatio computeOutParameters resizeFrame emit
  cases h : d.aspect_ratio_changed <;> simp <;> split_ifs <;> rfl

theorem setOutAspectRatio_src (d : VideoRendererPrivate) (r : ℚ) :
    (setOutAspectRatio d r).src_width = d.src_width ∧
    (setOutAspectRatio d r).src_height = d.src_height := by
  unfold setOutAspectRatio computeOutParameters resizeFrame emit
  dsimp only
  split_ifs <;> exact ⟨rfl, rfl⟩

/-! ## The geometry invariant -/

theorem settled_of_fit (d : VideoRendererPrivate) (hW : 0 < d.renderer_width)
    (hH : 0 < d.renderer_height) (hr : 0 < d.out_aspect_ratio)
    (hs : 0 < d.source_aspect_ratio)
    (hrect : d.out_rect = fitRect d.renderer_width d.renderer_height d.out_aspect_ratio) :
    Settled d := ⟨hW, hH, hr, hs, hrect⟩

theorem settled_geometryOK (d : VideoRendererPrivate) (hd : Settled d) : GeometryOK d := by
  obtain ⟨hW, hH, hr, _, hrect⟩ := hd
  unfold GeometryOK videoRect rendererWidth rendererHeight outAspectRatio
  rw [hrect]
  exact fitRect_ok _ _ _ hW hH hr

theorem settled_setOutAspectRatio (d : VideoRendererPrivate) (r : ℚ)
    (hW : 0 < d.renderer_width) (hH : 0 < d.renderer_height)
    (hs : 0 < d.source_aspect_ratio) (hr : 0 < r) : Settled (setOutAspectRatio d r) := by
  apply settled_of_fit
  · rw [setOutAspectRatio_renderer_width]; exact hW
  · rw [setOutAspectRatio_renderer_height]; exact hH
  · rw [setOutAspectRatio_out_aspect_ratio]; exact hr
  · rw [setOutAspectRatio_source_aspect_ratio]; exact hs
  · rw [setOutAspectRatio_out_rect, setOutAspectRatio_renderer_width,
      setOutAspectRatio_renderer_height, setOutAspectRatio_out_aspect_ratio]

theorem settled_resizeRenderer (d : VideoRendererPrivate) (w h : Int) (hd : Settled d)
    (hw : 0 < w) (hh : 0 < h) : Settled (resizeRenderer d w h) := by
  obtain ⟨_, _, hr, hs, _⟩ := hd
  have h1 : ¬ (w = 0 ∨ h = 0) := by omega
  unfold resizeRenderer computeOutParameters resizeFrame emit
  simp only [h1, if_false]
  exact settled_of_fit _ hw hh hr hs rfl

theorem settled_setOutAspectRatioMode (d : VideoRendererPrivate) (m : OutAspectRatioMode)
    (hd : Settled d) : Settled (setOutAspectRatioMode d m) := by
  have hd0 := hd
  obtain ⟨hW, hH, hr, hs, _⟩ := hd
  unfold setOutAspectRatioMode
  dsimp only
  split_ifs with h1 h2 h3
  · exact hd0
  · refine settled_setOutAspectRatio _ _ hW hH hs ?_
    have hWq : (0 : ℚ) < (d.renderer_width : ℚ) := by exact_mod_cast hW
    have hHq : (0 : ℚ) < (d.renderer_height : ℚ) := by exact_mod_cast hH
    positivity
  · exact settled_setOutAspectRatio _ _ hW hH hs hs
  · exact hd0

theorem settled_setInSize (d : VideoRendererPrivate) (w h : Int) (hd : Settled d)
    (hw : 0 < w) (hh : 0 < h) : Settled (setInSize d w h) := by
  have hd0 := hd
  obtain ⟨hW, hH, hr, hs, hg⟩ := hd
  have hq : (0 : ℚ) < (w : ℚ) / (h : ℚ) := by
    have hwq : (0 : ℚ) < (w : ℚ) := by exact_mod_cast hw
    have hhq : (0 : ℚ) < (h : ℚ) := by exact_mod_cast hh
    positivity
  unfold setInSize
  dsimp only
  split_ifs with h1 h2 h3 h4 h5
  · exact hd0
  · have := settled_setOutAspectRatio
      { d with aspect_ratio_changed := true, src_width := w, src_height := h,
               source_aspect_ratio := (w : ℚ) / (h : ℚ) } ((w : ℚ) / (h : ℚ)) hW hH hq hq
    exact this
  · exact ⟨hW, hH, hr, hq, hg⟩
  · exact hd0
  · have := settled_setOutAspectRatio
      { d with src_width := w, src_height := h,
               source_aspect_ratio := (w : ℚ) / (h : ℚ) } ((w : ℚ) / (h : ℚ)) hW hH hq hq
    exact this
  · exact ⟨hW, hH, hr, hq, hg⟩

theorem settled_run (d : VideoRendererPrivate) (c : GeomCall) (hd : Settled d)
    (hc : c.positive) : Settled (c.run d) := by
  cases c with
  | setInSize w h => exact settled_setInSize d w h hd hc.1 hc.2
  | resizeRenderer w h => exact settled_resizeRenderer d w h hd hc.1 hc.2
  | setOutAspectRatioMode m => exact settled_setOutAspectRatioMode d m hd
  | setOutAspectRatio r =>
    obtain ⟨hW, hH, _, hs, _⟩ := hd
    exact settled_setOutAspectRatio d r hW hH hs hc

theorem settled_runGeomCalls (cs : List GeomCall) (d : VideoRendererPrivate)
    (hd : Settled d) (hcs : ∀ c ∈ cs, c.positive) : Settled (runGeomCalls d cs) := by
  induction cs generalizing d with
  | nil => exact hd
  | cons c cs ih =>
    have hc : c.positive := hcs c (List.mem_cons_self c cs)
    have hrest : ∀ c' ∈ cs, c'.positive := fun c' hc' => hcs c' (List.mem_cons_of_mem c hc')
    exact ih (c.run d) (settled_run d c hd hc) hrest

/-! ## Further field lemmas -/

theorem setInSize_source_aspect_ratio (d : VideoRendererPrivate) (w h : Int)
    (hsrc : d.aspect_ratio_changed = true ∨ d.src_width ≠ w ∨ d.src_height ≠ h ∨
      d.source_aspect_ratio = (w : ℚ) / (h : ℚ)) :
    (setInSize d w h).source_aspect_ratio = (w : ℚ) / (h : ℚ) := by
  unfold setInSize
  dsimp only
  split_ifs with h1 h2 h3 h4 h5
  · simp at h2
  · exact setOutAspectRatio_source_aspect_ratio _ _
  · rfl
  · simp only [Bool.not_eq_true', ne_eq, not_or, not_not] at h1 h4
    rcases hsrc with h | h | h | h
    · rw [h] at h4; simp at h4
    · exact absurd h1.1 h
    · exact absurd h1.2 h
    · exact h
  · exact setOutAspectRatio_source_aspect_ratio _ _
  · rfl

theorem resizeRenderer_fields (d : VideoRendererPrivate) (w h : Int) (hw : w ≠ 0)
    (hh : h ≠ 0) :
    (resizeRenderer d w h).renderer_width = w ∧ (resizeRenderer d w h).renderer_height = h ∧
    (resizeRenderer d w h).source_aspect_ratio = d.source_aspect_ratio := by
  have h1 : ¬ (w = 0 ∨ h = 0) := by tauto
  unfold resizeRenderer computeOutParameters resizeFrame emit
  simp only [h1, if_false, and_self]

theorem setOutAspectRatioMode_mode (d : VideoRendererPrivate) (m : OutAspectRatioMode) :
    (setOutAspectRatioMode d m).out_aspect_ratio_mode = m := by
  unfold setOutAspectRatioMode
  dsimp only
  split_ifs with h1 h2 h3
  · exact h1.symm
  · rw [setOutAspectRatio_mode]; rfl
  · rw [setOutAspectRatio_mode]; rfl
  · rfl

theorem setOutAspectRatioMode_same (d : VideoRendererPrivate) (m : OutAspectRatioMode)
    (h : m = d.out_aspect_ratio_mode) : setOutAspectRatioMode d m = d := by
  unfold setOutAspectRatioMode
  rw [if_pos h]

theorem setOutAspectRatioMode_renderer_size (d : VideoRendererPrivate)
    (m : OutAspectRatioMode) :
    (setOutAspectRatioMode d m).renderer_width = d.renderer_width ∧
    (setOutAspectRatioMode d m).renderer_height = d.renderer_height := by
  unfold setOutAspectRatioMode
  dsimp only
  split_ifs with h1 h2 h3
  · exact ⟨rfl, rfl⟩
  · exact ⟨setOutAspectRatio_renderer_width _ _, setOutAspectRatio_renderer_height _ _⟩
  · exact ⟨setOutAspectRatio_renderer_width _ _, setOutAspectRatio_renderer_height _ _⟩
  · exact ⟨rfl, rfl⟩

/-- After a change of mode the stored ratio is the surface ratio, the source ratio, or
the ratio stored before, according to the new mode. -/
theorem setOutAspectRatioMode_out_aspect_ratio (d : VideoRendererPrivate)
    (m : OutAspectRatioMode) (hm : m ≠ d.out_aspect_ratio_mode) :
    (setOutAspectRatioMode d m).out_aspect_ratio =
      match m with
      | OutAspectRatioMode.RendererAspectRatio =>
        (d.renderer_width : ℚ) / (d.renderer_height : ℚ)
      | OutAspectRatioMode.VideoAspectRatio => d.source_aspect_ratio
      | OutAspectRatioMode.CustomAspectRation => d.out_aspect_ratio := by
  unfold setOutAspectRatioMode
  dsimp only
  rw [if_neg hm]
  cases m
  · simp only [if_true]
    exact setOutAspectRatio_out_aspect_ratio _ _
  · simp only [reduceCtorEq, if_false, if_true]
    exact setOutAspectRatio_out_aspect_ratio _ _
  · simp only [reduceCtorEq, if_false]

/-! ## Claims C1 – C3: the output rectangle and the mode -/

/-- C1.  Let the four geometry operations run with a positive source size, a positive
surface size, a positive explicit ratio and any mode, starting from a renderer whose
stored source ratio is not stale for that source size.  Then the renderer is in the
requested mode with the requested surface size; its ratio is the surface ratio, the source
ratio or the explicit ratio according to the mode; `videoRect()` lies inside the surface
`[0, surfaceW] × [0, surfaceH]` and has the ratio `outAspectRatio()` up to the rounding of
one pixel; and both properties of `videoRect()` remain true after any further geometry
calls with positive arguments. -/
theorem videoRect_within_surface_with_ratio (d : VideoRendererPrivate)
    (sourceW sourceH surfaceW surfaceH : Int) (ratio : ℚ) (mode : OutAspectRatioMode)
    (later : List GeomCall)
    (hsw : 0 < sourceW) (hsh : 0 < sourceH) (hW : 0 < surfaceW) (hH : 0 < surfaceH)
    (hratio : 0 < ratio)
    (hsrc : d.aspect_ratio_changed = true ∨ d.src_width ≠ sourceW ∨ d.src_height ≠ sourceH ∨
      d.source_aspect_ratio = (sourceW : ℚ) / (sourceH : ℚ))
    (hlater : ∀ c ∈ later, c.positive) :
    outAspectRatioMode (geometrySetup d sourceW sourceH surfaceW surfaceH ratio mode) = mode ∧
    rendererWidth (geometrySetup d sourceW sourceH surfaceW surfaceH ratio mode) = surfaceW ∧
    rendererHeight (geometrySetup d sourceW sourceH surfaceW surfaceH ratio mode) = surfaceH ∧
    outAspectRatio (geometrySetup d sourceW sourceH surfaceW surfaceH ratio mode) =
      (match mode with
        | OutAspectRatioMode.RendererAspectRatio => (surfaceW : ℚ) / (surfaceH : ℚ)
        | OutAspectRatioMode.VideoAspectRatio => (sourceW : ℚ) / (sourceH : ℚ)
        | OutAspectRatioMode.CustomAspectRation => ratio) ∧
    videoRect (geometrySetup d sourceW sourceH surfaceW surfaceH ratio mode) =
      fitRect surfaceW surfaceH
        (outAspectRatio (geometrySetup d sourceW sourceH surfaceW surfaceH ratio mode)) ∧
    GeometryOK (geometrySetup d sourceW sourceH surfaceW surfaceH ratio mode) ∧
    GeometryOK
      (runGeomCalls (geometrySetup d sourceW sourceH surfaceW surfaceH ratio mode) later) := by
  obtain ⟨hrw, hrh, hrs⟩ :=
    resizeRenderer_fields (setInSize d sourceW sourceH) surfaceW surfaceH hW.ne' hH.ne'
  have hs1 := setInSize_source_aspect_ratio d sourceW sourceH hsrc
  have hq : (0 : ℚ) < (sourceW : ℚ) / (sourceH : ℚ) := by
    have h1 : (0 : ℚ) < (sourceW : ℚ) := by exact_mod_cast hsw
    have h2 : (0 : ℚ) < (sourceH : ℚ) := by exact_mod_cast hsh
    positivity
  have hset3 : Settled
      (setOutAspectRatio (resizeRenderer (setInSize d sourceW sourceH) surfaceW surfaceH)
        ratio) := by
    refine settled_setOutAspectRatio _ _ ?_ ?_ ?_ hratio
    · rw [hrw]; exact hW
    · rw [hrh]; exact hH
    · rw [hrs, hs1]; exact hq
  have hmode3 :
      (setOutAspectRatio (resizeRenderer (setInSize d sourceW sourceH) surfaceW surfaceH)
        ratio).out_aspect_ratio_mode = OutAspectRatioMode.CustomAspectRation := by
    rw [setOutAspectRatio_mode]
    have hflag : (resizeRenderer (setInSize d sourceW sourceH) surfaceW
        surfaceH).aspect_ratio_changed = false := by
      have h1 : ¬ (surfaceW = 0 ∨ surfaceH = 0) := by omega
      unfold resizeRenderer computeOutParameters resizeFrame emit
      simp only [h1, if_false]
      unfold setInSize
      dsimp only
      split_ifs with h2 h3 h4 h5 h6
      · simp at h3
      · rfl
      · rfl
      · simpa using h5
      · rfl
      · rfl
    rw [hflag]
    rfl
  have hset4 := settled_setOutAspectRatioMode _ mode hset3
  have hsize := setOutAspectRatioMode_renderer_size
    (setOutAspectRatio (resizeRenderer (setInSize d sourceW sourceH) surfaceW surfaceH) ratio)
    mode
  have hw4 : (geometrySetup d sourceW sourceH surfaceW surfaceH ratio mode).renderer_width =
      surfaceW := by
    unfold geometrySetup
    rw [hsize.1, setOutAspectRatio_renderer_width, hrw]
  have hh4 : (geometrySetup d sourceW sourceH surfaceW surfaceH ratio mode).renderer_height =
      surfaceH := by
    unfold geometrySetup
    rw [hsize.2, setOutAspectRatio_renderer_height, hrh]
  refine ⟨setOutAspectRatioMode_mode _ _, hw4, hh4, ?_, ?_, settled_geometryOK _ hset4,
    settled_geometryOK _ (settled_runGeomCalls later _ hset4 hlater)⟩
  swap
  · have hfit := hset4.2.2.2.2
    unfold geometrySetup at hw4 hh4
    rw [hw4, hh4] at hfit
    exact hfit
  · unfold outAspectRatio geometrySetup
    by_cases hm : mode = OutAspectRatioMode.CustomAspectRation
    · subst hm
      have : setOutAspectRatioMode
          (setOutAspectRatio (resizeRenderer (setInSize d sourceW sourceH) surfaceW surfaceH)
            ratio) OutAspectRatioMode.CustomAspectRation =
          setOutAspectRatio (resizeRenderer (setInSize d sourceW sourceH) surfaceW surfaceH)
            ratio := by
        unfold setOutAspectRatioMode
        rw [if_pos hmode3.symm]
      rw [this, setOutAspectRatio_out_aspect_ratio]
    · have hne : mode ≠ (setOutAspectRatio
          (resizeRenderer (setInSize d sourceW sourceH) surfaceW surfaceH)
          ratio).out_aspect_ratio_mode := by
        rw [hmode3]; exact hm
      rw [setOutAspectRatioMode_out_aspect_ratio _ _ hne]
      cases mode
      · simp only
        rw [setOutAspectRatio_renderer_width, setOutAspectRatio_renderer_height, hrw, hrh]
      · simp only
        rw [setOutAspectRatio_source_aspect_ratio, hrs, hs1]
      · exact absurd rfl hm

/-- The scenario of C1: surface 800 × 800, source 1920 × 1080, mode `VideoAspectRatio`
gives the rectangle x = 0, y = 175, width = 800, height = 450. -/
theorem videoRect_within_surface_with_ratio_witness :
    GeometryOK (geometrySetup fresh 1920 1080 800 800 1 OutAspectRatioMode.VideoAspectRatio) ∧
    videoRect (geometrySetup fresh 1920 1080 800 800 1 OutAspectRatioMode.VideoAspectRatio) =
      QRect.mk4 0 175 800 450 := by
  have h := videoRect_within_surface_with_ratio fresh 1920 1080 800 800 1
      OutAspectRatioMode.VideoAspectRatio [] (by decide) (by decide) (by decide) (by decide)
      (by norm_num) (Or.inl rfl) (by simp)
  refine ⟨h.2.2.2.2.2.1, ?_⟩
  rw [h.2.2.2.2.1, h.2.2.2.1]
  norm_num [fitRect, toInt]
  rfl

/-- C2.  From any mode other than `RendererAspectRatio`, on a surface of positive width and
height, `setOutAspectRatioMode(RendererAspectRatio)` leaves the output rectangle equal to
the whole surface (origin (0,0), width `renderer_width`, height `renderer_height`) and the
aspect-ratio value equal to `renderer_width / renderer_height`. -/
theorem setOutAspectRatioMode_renderer_fills_surface (d : VideoRendererPrivate)
    (hmode : d.out_aspect_ratio_mode ≠ OutAspectRatioMode.RendererAspectRatio)
    (hW : 0 < d.renderer_width) (hH : 0 < d.renderer_height) :
    videoRect (setOutAspectRatioMode d OutAspectRatioMode.RendererAspectRatio) =
      QRect.mk4 0 0 d.renderer_width d.renderer_height ∧
    (videoRect (setOutAspectRatioMode d OutAspectRatioMode.RendererAspectRatio)).x = 0 ∧
    (videoRect (setOutAspectRatioMode d OutAspectRatioMode.RendererAspectRatio)).y = 0 ∧
    (videoRect (setOutAspectRatioMode d OutAspectRatioMode.RendererAspectRatio)).width =
      d.renderer_width ∧
    (videoRect (setOutAspectRatioMode d OutAspectRatioMode.RendererAspectRatio)).height =
      d.renderer_height ∧
    outAspectRatio (setOutAspectRatioMode d OutAspectRatioMode.RendererAspectRatio) =
      (d.renderer_width : ℚ) / (d.renderer_height : ℚ) ∧
    outAspectRatioMode (setOutAspectRatioMode d OutAspectRatioMode.RendererAspectRatio) =
      OutAspectRatioMode.RendererAspectRatio := by
  have _ := hW
  have hrect : videoRect (setOutAspectRatioMode d OutAspectRatioMode.RendererAspectRatio) =
      QRect.mk4 0 0 d.renderer_width d.renderer_height := by
    unfold videoRect setOutAspectRatioMode
    dsimp only
    rw [if_neg (Ne.symm hmode), if_pos rfl, setOutAspectRatio_out_rect]
    exact fitRect_full _ _ hH
  refine ⟨hrect, ?_, ?_, ?_, ?_, ?_, setOutAspectRatioMode_mode _ _⟩
  · rw [hrect]; rfl
  · rw [hrect]; rfl
  · rw [hrect]; exact QRect.width_mk4 _ _ _ _
  · rw [hrect]; exact QRect.height_mk4 _ _ _ _
  · unfold outAspectRatio
    rw [setOutAspectRatioMode_out_aspect_ratio _ _ (Ne.symm hmode)]

/-- C2 at a renderer in mode `VideoAspectRatio` with a 480 × 320 surface. -/
theorem setOutAspectRatioMode_renderer_fills_surface_witness :
    videoRect (setOutAspectRatioMode fresh OutAspectRatioMode.RendererAspectRatio) =
      QRect.mk4 0 0 480 320 ∧
    outAspectRatio (setOutAspectRatioMode fresh OutAspectRatioMode.RendererAspectRatio) =
      ((480 : Int) : ℚ) / ((320 : Int) : ℚ) :=
  ⟨(setOutAspectRatioMode_renderer_fills_surface fresh (by decide) (by decide)
      (by decide)).1,
   (setOutAspectRatioMode_renderer_fills_surface fresh (by decide) (by decide)
      (by decide)).2.2.2.2.2.1⟩

/-- C3.  Calling `setOutAspectRatioMode(m)` twice in a row: the second call returns at
the guard `mode == d.out_aspect_ratio_mode`, so the whole state after it (mode, ratio,
output rectangle, both flags and everything else) is the state after the first call, and
the record of `resizeFrame` requests has not grown. -/
theorem setOutAspectRatioMode_twice (d : VideoRendererPrivate) (m : OutAspectRatioMode) :
    setOutAspectRatioMode (setOutAspectRatioMode d m) m = setOutAspectRatioMode d m ∧
    (setOutAspectRatioMode (setOutAspectRatioMode d m) m).trace =
      (setOutAspectRatioMode d m).trace := by
  have h : setOutAspectRatioMode (setOutAspectRatioMode d m) m = setOutAspectRatioMode d m :=
    setOutAspectRatioMode_same _ _ (setOutAspectRatioMode_mode d m).symm
  exact ⟨h, by rw [h]⟩

/-! ## Claim C4: mapping between surface and frame -/

theorem toInt_small {q : ℚ} (h0 : 0 ≤ q) (h1 : q < 1) : toInt q = 0 := by
  rw [toInt_of_nonneg h0]
  exact Int.floor_eq_zero_iff.mpr ⟨h0, h1⟩

theorem realROI_tinyRoi : realROI tinyRoi = QRect.mk4 0 0 0 0 := by
  have hq : qRound (0 : ℚ) = 0 := by
    unfold qRound
    rw [if_pos (le_refl _)]
    exact toInt_small (by norm_num) (by norm_num)
  have hq' : qRound (1 / 4000 : ℚ) = 0 := by
    unfold qRound
    rw [if_pos (by norm_num)]
    exact toInt_small (by norm_num) (by norm_num)
  have hx : toInt ((0 : ℚ) * ((1920 : Int) : ℚ)) = 0 :=
    toInt_small (by norm_num) (by norm_num)
  have hy : toInt ((0 : ℚ) * ((1080 : Int) : ℚ)) = 0 :=
    toInt_small (by norm_num) (by norm_num)
  have hw : toInt ((1 / 4000 : ℚ) * ((1920 : Int) : ℚ)) = 0 :=
    toInt_small (by norm_num) (by norm_num)
  have hh : toInt ((1 / 4000 : ℚ) * ((1080 : Int) : ℚ)) = 0 :=
    toInt_small (by norm_num) (by norm_num)
  have ha : qAbs (0 : ℚ) ≤ 1 := by unfold qAbs; norm_num
  have hb : qAbs (1 / 4000 : ℚ) < 1 := by unfold qAbs; norm_num
  have hc : (1 / 4000 : ℚ) < 1 := by norm_num
  have hv : (⟨0, 0, 1 / 4000, 1 / 4000⟩ : QRectF).isValid = true := by
    unfold QRectF.isValid
    norm_num
  unfold realROI
  simp only [tinyRoi, playing, fresh, hv, Bool.not_true, Bool.false_eq_true, if_false, QRectF.toRect,
    hq, hq', ha, hb, hc, if_true, hx, hy, hw, hh]
  rfl

theorem zoom_tinyRoi : zoom tinyRoi = 0 := by
  unfold zoom
  rw [realROI_tinyRoi]
  simp [QRectF.ofRect, QRect.width, QRect.height, QRect.mk4, qMax]

/-- C4, as stated, fails: with a positive surface (480 × 320) and the valid region of
interest (0, 0, 1/4000, 1/4000) on a 1920 × 1080 source the resolved region is empty, the
zoom is 0, `mapToFrame` sends every surface point to the same frame point, and
`mapFromFrame ∘ mapToFrame` is not the identity. -/
theorem mapFromFrame_mapToFrame_counterexample :
    0 < rendererWidth tinyRoi ∧ 0 < rendererHeight tinyRoi ∧ tinyRoi.roi.isValid = true ∧
    (∀ p : QPointF, mapToFrame tinyRoi p = ⟨0, 0⟩) ∧
    mapFromFrame tinyRoi (mapToFrame tinyRoi ⟨0, 0⟩) ≠ ⟨0, 0⟩ := by
  have hmap : ∀ p : QPointF, mapToFrame tinyRoi p = ⟨0, 0⟩ := by
    intro p
    unfold mapToFrame
    rw [zoom_tinyRoi, realROI_tinyRoi]
    simp [QRectF.ofRect, QRectF.center, QRect.width, QRect.height, QRect.x, QRect.y,
      QRect.mk4, QPointF.add, QPointF.mul]
  refine ⟨by decide, by decide, ?_, hmap, ?_⟩
  · simp [tinyRoi, playing, QRectF.isValid]
  · rw [hmap]
    unfold mapFromFrame
    rw [zoom_tinyRoi, realROI_tinyRoi]
    simp [QRectF.ofRect, QRectF.center, QRect.width, QRect.height, QRect.x, QRect.y,
      QRect.mk4, QPointF.add, QPointF.sub, QPointF.div, rendererCenter, rendererWidth,
      rendererHeight, tinyRoi, playing, fresh]
    intro h
    exact absurd h (by decide)

/-- C4, amended.  For a fixed renderer state with positive renderer width and height whose
zoom factor `max(roi.width/rendererWidth, roi.height/rendererHeight)` is not zero,
`mapFromFrame` and `mapToFrame` are mutual inverses over exact arithmetic. -/
theorem mapFromFrame_mapToFrame_inverse (d : VideoRendererPrivate) (p q : QPointF)
    (hW : 0 < rendererWidth d) (hH : 0 < rendererHeight d) (hz : zoom d ≠ 0) :
    mapFromFrame d (mapToFrame d p) = p ∧ mapToFrame d (mapFromFrame d q) = q := by
  have _ := hW
  have _ := hH
  obtain ⟨px, py⟩ := p
  obtain ⟨qx, qy⟩ := q
  unfold mapFromFrame mapToFrame
  simp only [QPointF.add, QPointF.sub, QPointF.mul, QPointF.div, QPointF.mk.injEq]
  refine ⟨⟨?_, ?_⟩, ⟨?_, ?_⟩⟩ <;> field_simp <;> ring

theorem toInt_eq_of_bounds {q : ℚ} {n : Int} (hn : 0 ≤ n) (h0 : (n : ℚ) ≤ q)
    (h1 : q < (n : ℚ) + 1) : toInt q = n := by
  have hq : (0 : ℚ) ≤ q := le_trans (by exact_mod_cast hn) h0
  rw [toInt_of_nonneg hq]
  exact Int.floor_eq_iff.mpr ⟨h0, h1⟩

theorem realROI_quarterRoi : realROI quarterRoi = QRect.mk4 0 0 960 540 := by
  have hq : qRound (0 : ℚ) = 0 := by
    unfold qRound
    rw [if_pos (le_refl _)]
    exact toInt_small (by norm_num) (by norm_num)
  have hq1 : qRound (960 : ℚ) = 960 := by
    unfold qRound
    rw [if_pos (by norm_num)]
    exact toInt_eq_of_bounds (by norm_num) (by norm_num) (by norm_num)
  have hq2 : qRound (540 : ℚ) = 540 := by
    unfold qRound
    rw [if_pos (by norm_num)]
    exact toInt_eq_of_bounds (by norm_num) (by norm_num) (by norm_num)
  have hx : toInt ((0 : ℚ) * ((1920 : Int) : ℚ)) = 0 :=
    toInt_small (by norm_num) (by norm_num)
  have hy : toInt ((0 : ℚ) * ((1080 : Int) : ℚ)) = 0 :=
    toInt_small (by norm_num) (by norm_num)
  have ha : qAbs (0 : ℚ) ≤ 1 := by unfold qAbs; norm_num
  have hb : ¬ qAbs (960 : ℚ) < 1 := by unfold qAbs; norm_num
  have hc : ¬ (540 : ℚ) < 1 := by norm_num
  have hv : (⟨0, 0, 960, 540⟩ : QRectF).isValid = true := by
    unfold QRectF.isValid
    norm_num
  unfold realROI
  simp only [quarterRoi, playing, fresh, hv, Bool.not_true, Bool.false_eq_true, if_false,
    QRectF.toRect, hq, hq1, hq2, ha, hb, hc, if_true, hx, hy]
  rfl

theorem zoom_quarterRoi : zoom quarterRoi = 2 := by
  unfold zoom
  rw [realROI_quarterRoi]
  simp only [QRectF.ofRect, QRect.width, QRect.height, QRect.mk4, qMax, rendererWidth,
    rendererHeight, quarterRoi, playing, fresh]
  norm_num

/-- C4, amended, at the region of interest (0, 0, 960, 540) of a 1920 × 1080 source on a
480 × 320 surface, where the zoom is 2. -/
theorem mapFromFrame_mapToFrame_inverse_witness :
    zoom quarterRoi = 2 ∧
    mapFromFrame quarterRoi (mapToFrame quarterRoi ⟨10, 20⟩) = ⟨10, 20⟩ ∧
    mapToFrame quarterRoi (mapFromFrame quarterRoi ⟨300, 200⟩) = ⟨300, 200⟩ :=
  ⟨zoom_quarterRoi,
   mapFromFrame_mapToFrame_inverse quarterRoi ⟨10, 20⟩ ⟨300, 200⟩ (by decide) (by decide)
     (by rw [zoom_quarterRoi]; norm_num)⟩

/-! ## Claims C5 – C7: the two named filter slots -/

theorem setOSDFilter_slot (d : VideoRendererPrivate) (f : FilterPtr) :
    (setOSDFilter d f).1.osd_filter = f ∧
    (setOSDFilter d f).1.subtitle_filter = d.subtitle_filter ∧
    (setOSDFilter d f).2 = d.osd_filter := by
  unfold setOSDFilter
  dsimp only
  split_ifs with h
  · exact ⟨h, rfl, rfl⟩
  · exact ⟨rfl, rfl, rfl⟩

theorem setSubtitleFilter_slot (d : VideoRendererPrivate) (f : FilterPtr) :
    (setSubtitleFilter d f).1.subtitle_filter = f ∧
    (setSubtitleFilter d f).1.osd_filter = d.osd_filter ∧
    (setSubtitleFilter d f).2 = d.subtitle_filter := by
  unfold setSubtitleFilter
  dsimp only
  split_ifs with h
  · exact ⟨h, rfl, rfl⟩
  · exact ⟨rfl, rfl, rfl⟩

theorem setOSDFilter_same (d : VideoRendererPrivate) :
    setOSDFilter d d.osd_filter = (d, d.osd_filter) := by
  unfold setOSDFilter
  simp

theorem setSubtitleFilter_same (d : VideoRendererPrivate) :
    setSubtitleFilter d d.subtitle_filter = (d, d.subtitle_filter) := by
  unfold setSubtitleFilter
  simp

/-- C5.  Setting a named slot to the reference it already holds (null included) returns
that reference and changes nothing: the renderer, hence the filter sequence and both slot
references, is the same afterwards.  Consequently, for every reference `f`, the second of
two consecutive calls with `f` returns `f` and leaves the renderer as the first call left
it. -/
theorem set_slot_to_same_reference (d : VideoRendererPrivate) (f : FilterPtr) :
    setOSDFilter d d.osd_filter = (d, d.osd_filter) ∧
    setSubtitleFilter d d.subtitle_filter = (d, d.subtitle_filter) ∧
    setOSDFilter (setOSDFilter d f).1 f = ((setOSDFilter d f).1, f) ∧
    setSubtitleFilter (setSubtitleFilter d f).1 f = ((setSubtitleFilter d f).1, f) := by
  refine ⟨setOSDFilter_same d, setSubtitleFilter_same d, ?_, ?_⟩
  · have h := setOSDFilter_same (setOSDFilter d f).1
    rw [(setOSDFilter_slot d f).1] at h
    exact h
  · have h := setSubtitleFilter_same (setSubtitleFilter d f).1
    rw [(setSubtitleFilter_slot d f).1] at h
    exact h

theorem updateFilters_chain (l : List FilterPtr) (old other f : FilterPtr)
    (h : l = chainOf old other ∨ l = chainOf other old) :
    updateFilters l old f = chainOf f other ∨ updateFilters l old f = chainOf other f := by
  rcases old with _ | a <;> rcases other with _ | b <;> rcases f with _ | c <;>
    rcases h with h | h <;> subst h <;>
    simp [updateFilters, chainOf, lastIndexOf] <;>
    split_ifs <;> simp_all

theorem slotsFormChain_setOSDFilter (d : VideoRendererPrivate) (f : FilterPtr)
    (h : SlotsFormChain d) : SlotsFormChain (setOSDFilter d f).1 := by
  unfold setOSDFilter
  dsimp only
  split_ifs with heq
  · exact h
  · exact updateFilters_chain d.filters d.osd_filter d.subtitle_filter f h

theorem slotsFormChain_setSubtitleFilter (d : VideoRendererPrivate) (f : FilterPtr)
    (h : SlotsFormChain d) : SlotsFormChain (setSubtitleFilter d f).1 := by
  unfold setSubtitleFilter
  dsimp only
  split_ifs with heq
  · exact h
  · exact (updateFilters_chain d.filters d.subtitle_filter d.osd_filter f h.symm).symm

theorem slotsFormChain_runSlotCalls (cs : List SlotCall) (d : VideoRendererPrivate)
    (h : SlotsFormChain d) : SlotsFormChain (runSlotCalls d cs) := by
  induction cs generalizing d with
  | nil => exact h
  | cons c cs ih =>
    cases c with
    | osd f => exact ih _ (slotsFormChain_setOSDFilter d f h)
    | subtitle f => exact ih _ (slotsFormChain_setSubtitleFilter d f h)

theorem slotsFormChain_of_noFilters (d : VideoRendererPrivate) (h : NoFilters d) :
    SlotsFormChain d := by
  obtain ⟨h1, h2, h3⟩ := h
  left
  rw [h1, h2, h3]
  rfl

theorem lastIndexOf_some_spec (l : List FilterPtr) (f : FilterPtr) (i : Nat)
    (h : lastIndexOf l f = some i) : i < l.length ∧ l[i]? = some f := by
  induction l generalizing i with
  | nil => simp [lastIndexOf] at h
  | cons x xs ih =>
    unfold lastIndexOf at h
    cases hx : lastIndexOf xs f with
    | some j =>
      rw [hx] at h
      simp only [Option.some.injEq] at h
      subst h
      obtain ⟨h1, h2⟩ := ih j hx
      exact ⟨by simp only [List.length_cons]; omega, by simpa using h2⟩
    | none =>
      rw [hx] at h
      simp only at h
      split_ifs at h with hxf
      simp only [Option.some.injEq] at h
      subst h
      exact ⟨by simp, by simp [hxf]⟩

theorem lastIndexOf_of_mem (l : List FilterPtr) (f : FilterPtr) (h : f ∈ l) :
    ∃ i, lastIndexOf l f = some i := by
  induction l with
  | nil => simp at h
  | cons x xs ih =>
    unfold lastIndexOf
    cases hx : lastIndexOf xs f with
    | some j => exact ⟨j + 1, rfl⟩
    | none =>
      rcases List.mem_cons.mp h with h1 | h1
      · exact ⟨0, by simp [h1]⟩
      · obtain ⟨i, hi⟩ := ih h1
        rw [hx] at hi
        exact absurd hi (by simp)

/-- Clearing a reference that occurs in the chain takes out one entry. -/
theorem updateFilters_clear (l : List FilterPtr) (g : Nat) (h : some g ∈ l) :
    RemovesOne l (updateFilters l (some g) none) (some g) := by
  obtain ⟨i, hi⟩ := lastIndexOf_of_mem l (some g) h
  obtain ⟨h1, h2⟩ := lastIndexOf_some_spec l (some g) i hi
  unfold updateFilters
  rw [hi]
  simp only [Option.isSome_none, Bool.false_eq_true, if_false]
  refine ⟨?_, i, h2, rfl⟩
  rw [List.length_eraseIdx]
  simp only [h1, if_true]
  omega

theorem mem_of_slotsFormChain_osd (d : VideoRendererPrivate) (g : Nat)
    (h : SlotsFormChain d) (hg : d.osd_filter = some g) : some g ∈ d.filters := by
  unfold SlotsFormChain at h
  rw [hg] at h
  rcases h with h | h <;> rw [h] <;> simp [chainOf]

theorem mem_of_slotsFormChain_subtitle (d : VideoRendererPrivate) (g : Nat)
    (h : SlotsFormChain d) (hg : d.subtitle_filter = some g) : some g ∈ d.filters := by
  unfold SlotsFormChain at h
  rw [hg] at h
  rcases h with h | h <;> rw [h] <;> simp [chainOf]

/-- C6.  In every state reached from an empty filter chain with both slots unset by a
finite sequence of `setOSDFilter` / `setSubtitleFilter` calls: if a slot holds the non-null
filter `g`, then setting that slot to null returns `g`, leaves the slot unset, and the new
filter sequence is the old one with one entry `g` taken out, so its length shrinks by
exactly one and the other entries keep their relative order. -/
theorem clear_slot_removes_one (d0 : VideoRendererPrivate) (cs : List SlotCall) (g : Nat)
    (h0 : NoFilters d0) :
    ((runSlotCalls d0 cs).osd_filter = some g →
      (setOSDFilter (runSlotCalls d0 cs) none).2 = some g ∧
      (setOSDFilter (runSlotCalls d0 cs) none).1.osd_filter = none ∧
      (setOSDFilter (runSlotCalls d0 cs) none).1.filters.length + 1 =
        (runSlotCalls d0 cs).filters.length ∧
      RemovesOne (runSlotCalls d0 cs).filters
        (setOSDFilter (runSlotCalls d0 cs) none).1.filters (some g)) ∧
    ((runSlotCalls d0 cs).subtitle_filter = some g →
      (setSubtitleFilter (runSlotCalls d0 cs) none).2 = some g ∧
      (setSubtitleFilter (runSlotCalls d0 cs) none).1.subtitle_filter = none ∧
      (setSubtitleFilter (runSlotCalls d0 cs) none).1.filters.length + 1 =
        (runSlotCalls d0 cs).filters.length ∧
      RemovesOne (runSlotCalls d0 cs).filters
        (setSubtitleFilter (runSlotCalls d0 cs) none).1.filters (some g)) := by
  have hinv := slotsFormChain_runSlotCalls cs d0 (slotsFormChain_of_noFilters d0 h0)
  constructor
  · intro hg
    have hmem := mem_of_slotsFormChain_osd _ g hinv hg
    have hrem := updateFilters_clear _ g hmem
    have hslot := setOSDFilter_slot (runSlotCalls d0 cs) none
    have hfilters : (setOSDFilter (runSlotCalls d0 cs) none).1.filters =
        updateFilters (runSlotCalls d0 cs).filters (some g) none := by
      unfold setOSDFilter
      simp [hg]
    rw [hfilters]
    exact ⟨by rw [hslot.2.2, hg], hslot.1, hrem.1, hrem⟩
  · intro hg
    have hmem := mem_of_slotsFormChain_subtitle _ g hinv hg
    have hrem := updateFilters_clear _ g hmem
    have hslot := setSubtitleFilter_slot (runSlotCalls d0 cs) none
    have hfilters : (setSubtitleFilter (runSlotCalls d0 cs) none).1.filters =
        updateFilters (runSlotCalls d0 cs).filters (some g) none := by
      unfold setSubtitleFilter
      simp [hg]
    rw [hfilters]
    exact ⟨by rw [hslot.2.2, hg], hslot.1, hrem.1, hrem⟩

/-- C6 after `setOSDFilter(1); setSubtitleFilter(2)`: clearing either slot leaves the
other filter alone in the chain. -/
theorem clear_slot_removes_one_witness :
    (setOSDFilter (runSlotCalls fresh [SlotCall.osd (some 1), SlotCall.subtitle (some 2)])
      none).2 = some 1 ∧
    (setOSDFilter (runSlotCalls fresh [SlotCall.osd (some 1), SlotCall.subtitle (some 2)])
      none).1.filters = [some 2] ∧
    (setSubtitleFilter (runSlotCalls fresh [SlotCall.osd (some 1), SlotCall.subtitle (some 2)])
      none).2 = some 2 ∧
    (setSubtitleFilter (runSlotCalls fresh [SlotCall.osd (some 1), SlotCall.subtitle (some 2)])
      none).1.filters = [some 1] :=
  ⟨((clear_slot_removes_one fresh [SlotCall.osd (some 1), SlotCall.subtitle (some 2)] 1
      (by decide)).1 rfl).1,
   rfl,
   ((clear_slot_removes_one fresh [SlotCall.osd (some 1), SlotCall.subtitle (some 2)] 2
      (by decide)).2 rfl).1,
   rfl⟩

/-- C7, as stated, fails: filling the OSD slot with filter 1 and the subtitle slot with
filter 2 gives the chain `[1, 2]` when the OSD slot is set first and `[2, 1]` when the
subtitle slot is set first, although the slots hold the same filters in both states. -/
theorem slot_order_counterexample :
    (runSlotCalls fresh [SlotCall.osd (some 1), SlotCall.subtitle (some 2)]).osd_filter =
      some 1 ∧
    (runSlotCalls fresh [SlotCall.osd (some 1), SlotCall.subtitle (some 2)]).subtitle_filter =
      some 2 ∧
    (runSlotCalls fresh [SlotCall.osd (some 1), SlotCall.subtitle (some 2)]).filters =
      [some 1, some 2] ∧
    (runSlotCalls fresh [SlotCall.subtitle (some 2), SlotCall.osd (some 1)]).osd_filter =
      some 1 ∧
    (runSlotCalls fresh [SlotCall.subtitle (some 2), SlotCall.osd (some 1)]).subtitle_filter =
      some 2 ∧
    (runSlotCalls fresh [SlotCall.subtitle (some 2), SlotCall.osd (some 1)]).filters =
      [some 2, some 1] :=
  ⟨rfl, rfl, rfl, rfl, rfl, rfl⟩

/-- C7, amended.  In every state reached from an empty filter chain by a finite sequence
of `setOSDFilter` / `setSubtitleFilter` calls in which both slots are set to distinct
filters, the filter sequence consists of exactly these two filters, which therefore occupy
its last two positions; either of the two orders may occur. -/
theorem slots_occupy_tail (d0 : VideoRendererPrivate) (cs : List SlotCall) (a b : Nat)
    (h0 : NoFilters d0) (hosd : (runSlotCalls d0 cs).osd_filter = some a)
    (hsub : (runSlotCalls d0 cs).subtitle_filter = some b) (hab : a ≠ b) :
    (runSlotCalls d0 cs).filters = [some a, some b] ∨
    (runSlotCalls d0 cs).filters = [some b, some a] := by
  have _ := hab
  have hinv := slotsFormChain_runSlotCalls cs d0 (slotsFormChain_of_noFilters d0 h0)
  unfold SlotsFormChain at hinv
  rw [hosd, hsub] at hinv
  exact hinv

/-- C7, amended, after `setSubtitleFilter(2); setOSDFilter(1)`. -/
theorem slots_occupy_tail_witness :
    (runSlotCalls fresh [SlotCall.subtitle (some 2), SlotCall.osd (some 1)]).filters =
      [some 1, some 2] ∨
    (runSlotCalls fresh [SlotCall.subtitle (some 2), SlotCall.osd (some 1)]).filters =
      [some 2, some 1] :=
  slots_occupy_tail fresh [SlotCall.subtitle (some 2), SlotCall.osd (some 1)] 1 2
    (by decide) rfl rfl (by decide)

/-! ## Claim C8: colour adjustment -/

theorem requestUpdate_adjustments (d : VideoRendererPrivate) :
    adjustments (requestUpdate d) = adjustments d := by
  unfold requestUpdate emit adjustments
  dsimp only
  split_ifs <;> rfl

/-- C8.  For each of brightness, contrast, hue and saturation: the setter returns exactly
what the hook `onChangingX(v)` returns, so it returns false exactly when the hook rejects
`v`; on rejection the renderer is unchanged (all four stored values, and no redraw request
is recorded); on acceptance the stored X is `v` and the other three values are unchanged.
With the hooks of `VideoRenderer` itself every setter returns false and changes nothing. -/
theorem set_adjustment_follows_hook (k : Hooks) (d : VideoRendererPrivate) (v : ℚ) :
    ((setBrightness k d v).2 = k.onChangingBrightness v ∧
      (k.onChangingBrightness v = false → (setBrightness k d v).1 = d) ∧
      (k.onChangingBrightness v = true →
        adjustments (setBrightness k d v).1 = (v, d.contrast, d.hue, d.saturation))) ∧
    ((setContrast k d v).2 = k.onChangingContrast v ∧
      (k.onChangingContrast v = false → (setContrast k d v).1 = d) ∧
      (k.onChangingContrast v = true →
        adjustments (setContrast k d v).1 = (d.brightness, v, d.hue, d.saturation))) ∧
    ((setHue k d v).2 = k.onChangingHue v ∧
      (k.onChangingHue v = false → (setHue k d v).1 = d) ∧
      (k.onChangingHue v = true →
        adjustments (setHue k d v).1 = (d.brightness, d.contrast, v, d.saturation))) ∧
    ((setSaturation k d v).2 = k.onChangingSaturation v ∧
      (k.onChangingSaturation v = false → (setSaturation k d v).1 = d) ∧
      (k.onChangingSaturation v = true →
        adjustments (setSaturation k d v).1 = (d.brightness, d.contrast, d.hue, v))) ∧
    setBrightness defaultHooks d v = (d, false) ∧
    setContrast defaultHooks d v = (d, false) ∧
    setHue defaultHooks d v = (d, false) ∧
    setSaturation defaultHooks d v = (d, false) := by
  refine ⟨?_, ?_, ?_, ?_, rfl, rfl, rfl, rfl⟩
  · unfold setBrightness
    cases h : k.onChangingBrightness v
    · simp
    · simp only [Bool.not_true, Bool.false_eq_true, if_false, true_and]
      exact ⟨fun h' => absurd h' (by simp), fun _ => requestUpdate_adjustments _⟩
  · unfold setContrast
    cases h : k.onChangingContrast v
    · simp
    · simp only [Bool.not_true, Bool.false_eq_true, if_false, true_and]
      exact ⟨fun h' => absurd h' (by simp), fun _ => requestUpdate_adjustments _⟩
  · unfold setHue
    cases h : k.onChangingHue v
    · simp
    · simp only [Bool.not_true, Bool.false_eq_true, if_false, true_and]
      exact ⟨fun h' => absurd h' (by simp), fun _ => requestUpdate_adjustments _⟩
  · unfold setSaturation
    cases h : k.onChangingSaturation v
    · simp
    · simp only [Bool.not_true, Bool.false_eq_true, if_false, true_and]
      exact ⟨fun h' => absurd h' (by simp), fun _ => requestUpdate_adjustments _⟩

/-- C8 at concrete hooks: a back-end that rejects everything leaves the brightness alone
and reports failure; one that accepts everything stores the contrast 1/2. -/
theorem set_adjustment_follows_hook_witness :
    (setBrightness defaultHooks fresh (3 / 2)).1 = fresh ∧
    (setBrightness defaultHooks fresh (3 / 2)).2 = false ∧
    (setContrast acceptAll fresh (1 / 2)).2 = true ∧
    adjustments (setContrast acceptAll fresh (1 / 2)).1 = (0, 1 / 2, 0, 0) :=
  ⟨(set_adjustment_follows_hook defaultHooks fresh (3 / 2)).1.2.1 rfl,
   (set_adjustment_follows_hook defaultHooks fresh (3 / 2)).1.1,
   (set_adjustment_follows_hook acceptAll fresh (1 / 2)).2.1.1,
   (set_adjustment_follows_hook acceptAll fresh (1 / 2)).2.1.2.2 rfl⟩

/-! ## Claims C9 and C10: zero sizes -/

theorem setInSize_same (d : VideoRendererPrivate) (w h : Int) (hw : d.src_width = w)
    (hh : d.src_height = h) (hflag : d.aspect_ratio_changed = false) :
    setInSize d w h = d := by
  unfold setInSize
  simp [hw, hh, hflag]

theorem setInSize_stores (d : VideoRendererPrivate) (w h : Int)
    (hnew : d.src_width ≠ w ∨ d.src_height ≠ h ∨ d.aspect_ratio_changed = true) :
    (setInSize d w h).src_width = w ∧ (setInSize d w h).src_height = h ∧
    (setInSize d w h).aspect_ratio_changed = false := by
  unfold setInSize
  dsimp only
  split_ifs with h1 h2 h3 h4 h5
  · simp at h2
  · exact ⟨(setOutAspectRatio_src _ _).1, (setOutAspectRatio_src _ _).2, rfl⟩
  · exact ⟨rfl, rfl, rfl⟩
  · simp only [Bool.not_eq_true', ne_eq, not_or, not_not] at h1 h4
    rcases hnew with h | h | h
    · exact absurd h1.1 h
    · exact absurd h1.2 h
    · rw [h] at h4; simp at h4
  · exact ⟨(setOutAspectRatio_src _ _).1, (setOutAspectRatio_src _ _).2, rfl⟩
  · exact ⟨rfl, rfl, rfl⟩

theorem setOutAspectRatioMode_aspect_ratio_changed (d : VideoRendererPrivate)
    (hmode : d.out_aspect_ratio_mode ≠ OutAspectRatioMode.RendererAspectRatio) :
    (setOutAspectRatioMode d OutAspectRatioMode.RendererAspectRatio).aspect_ratio_changed =
      false := by
  unfold setOutAspectRatioMode
  dsimp only
  rw [if_neg (Ne.symm hmode), if_pos rfl]
  exact setOutAspectRatio_aspect_ratio_changed _ _

/-- C9, as stated, fails: `setInSize(1920, 0)` on a renderer that shows a 1920 × 1080
source returns normally and has overwritten the stored source height with 0, so the prior
state is not left intact. -/
theorem setInSize_zero_height_counterexample :
    (setInSize playing 1920 0).src_height = 0 ∧ playing.src_height = 1080 ∧
    setInSize playing 1920 0 ≠ playing := by
  have h := (setInSize_stores playing 1920 0 (Or.inr (Or.inl (by decide)))).2.1
  refine ⟨h, rfl, ?_⟩
  intro heq
  rw [heq] at h
  exact absurd h (by decide)

/-- C9, amended.  The geometry calls have no failure path (they return no error), and a
zero denominator does not stop them.  `setInSize(w, 0)` is a no-op only when `(w, 0)` is
the stored source size and `aspect_ratio_changed` is clear; otherwise it stores
`src_width = w`, `src_height = 0` and clears `aspect_ratio_changed`.
`setOutAspectRatioMode(RendererAspectRatio)` with `renderer_height == 0` is a no-op only
when the mode already is `RendererAspectRatio`; otherwise it stores that mode, clears
`aspect_ratio_changed` and keeps the surface size.  (The value of the quotient with the
zero denominator is not part of the statement.) -/
theorem zero_denominator_calls_proceed (d : VideoRendererPrivate) (w : Int) :
    (d.src_width = w → d.src_height = 0 → d.aspect_ratio_changed = false →
      setInSize d w 0 = d) ∧
    (d.src_width ≠ w ∨ d.src_height ≠ 0 ∨ d.aspect_ratio_changed = true →
      (setInSize d w 0).src_width = w ∧ (setInSize d w 0).src_height = 0 ∧
      (setInSize d w 0).aspect_ratio_changed = false) ∧
    (d.renderer_height = 0 →
      d.out_aspect_ratio_mode = OutAspectRatioMode.RendererAspectRatio →
      setOutAspectRatioMode d OutAspectRatioMode.RendererAspectRatio = d) ∧
    (d.renderer_height = 0 →
      d.out_aspect_ratio_mode ≠ OutAspectRatioMode.RendererAspectRatio →
      outAspectRatioMode (setOutAspectRatioMode d OutAspectRatioMode.RendererAspectRatio) =
        OutAspectRatioMode.RendererAspectRatio ∧
      (setOutAspectRatioMode d OutAspectRatioMode.RendererAspectRatio).aspect_ratio_changed =
        false ∧
      rendererHeight (setOutAspectRatioMode d OutAspectRatioMode.RendererAspectRatio) = 0 ∧
      rendererWidth (setOutAspectRatioMode d OutAspectRatioMode.RendererAspectRatio) =
        d.renderer_width) := by
  refine ⟨fun h1 h2 h3 => setInSize_same d w 0 h1 h2 h3, setInSize_stores d w 0, ?_, ?_⟩
  · intro _ hm
    exact setOutAspectRatioMode_same d _ hm.symm
  · intro hz hm
    refine ⟨setOutAspectRatioMode_mode d _, setOutAspectRatioMode_aspect_ratio_changed d hm,
      ?_, ?_⟩
    · unfold rendererHeight
      rw [(setOutAspectRatioMode_renderer_size d _).2, hz]
    · unfold rendererWidth
      rw [(setOutAspectRatioMode_renderer_size d _).1]

/-- C9, amended, at `setInSize(1920, 0)` on `playing` and at
`setOutAspectRatioMode(RendererAspectRatio)` on `flat`. -/
theorem zero_denominator_calls_proceed_witness :
    (setInSize playing 1920 0).src_width = 1920 ∧
    (setInSize playing 1920 0).src_height = 0 ∧
    outAspectRatioMode (setOutAspectRatioMode flat OutAspectRatioMode.RendererAspectRatio) =
      OutAspectRatioMode.RendererAspectRatio :=
  ⟨((zero_denominator_calls_proceed playing 1920).2.1 (Or.inr (Or.inl (by decide)))).1,
   ((zero_denominator_calls_proceed playing 1920).2.1 (Or.inr (Or.inl (by decide)))).2.1,
   ((zero_denominator_calls_proceed flat 0).2.2.2 rfl (by decide)).1⟩

/-- C10.  `resizeRenderer(w, h)` with `w == 0` or `h == 0` changes nothing: the renderer
(surface size, output rectangle, every other field, and the record of `resizeFrame`
requests) is the same afterwards.  With both arguments non-zero, `rendererWidth()` is `w`
and `rendererHeight()` is `h` after the call. -/
theorem resizeRenderer_zero_or_stored (d : VideoRendererPrivate) (w h : Int) :
    (w = 0 ∨ h = 0 → resizeRenderer d w h = d) ∧
    (w ≠ 0 → h ≠ 0 →
      rendererWidth (resizeRenderer d w h) = w ∧ rendererHeight (resizeRenderer d w h) = h) := by
  constructor
  · intro hz
    unfold resizeRenderer
    rw [if_pos hz]
  · intro hw hh
    obtain ⟨h1, h2, _⟩ := resizeRenderer_fields d w h hw hh
    exact ⟨h1, h2⟩

/-- C10 at `resizeRenderer(0, 600)` and `resizeRenderer(800, 600)` on `playing`. -/
theorem resizeRenderer_zero_or_stored_witness :
    resizeRenderer playing 0 600 = playing ∧
    rendererWidth (resizeRenderer playing 800 600) = 800 ∧
    rendererHeight (resizeRenderer playing 800 600) = 600 :=
  ⟨(resizeRenderer_zero_or_stored playing 0 600).1 (Or.inl rfl),
   (resizeRenderer_zero_or_stored playing 800 600).2 (by decide) (by decide)⟩

/-! ## Claims C11, C12 and C20: the flag `aspect_ratio_changed` and the mode -/

theorem setInSize_aspect_ratio_changed (d : VideoRendererPrivate) (w h : Int) :
    (setInSize d w h).aspect_ratio_changed = false := by
  unfold setInSize
  dsimp only
  split_ifs with h1 h2 h3 h4 h5
  · simp at h2
  · rfl
  · rfl
  · simpa using h4
  · rfl
  · rfl

/-- C11, as stated, fails: after `setOutAspectRatioMode(CustomAspectRation)` the flag
`aspect_ratio_changed` is still set, and `setInSize(1920, 1080)` with the stored source
size 1920 × 1080 then runs past its guard and clears the flag, so the state changes. -/
theorem setInSize_stored_size_counterexample :
    customMode.src_width = 1920 ∧ customMode.src_height = 1080 ∧
    customMode.aspect_ratio_changed = true ∧
    (setInSize customMode 1920 1080).aspect_ratio_changed = false ∧
    setInSize customMode 1920 1080 ≠ customMode := by
  have hflag : customMode.aspect_ratio_changed = true := rfl
  have hafter := setInSize_aspect_ratio_changed customMode 1920 1080
  refine ⟨rfl, rfl, hflag, hafter, ?_⟩
  intro heq
  rw [heq, hflag] at hafter
  exact absurd hafter (by decide)

/-- C11, amended.  For every state in which `aspect_ratio_changed` is clear,
`setInSize(w, h)` with `(w, h)` equal to the stored source size is a no-op: the entire
state (both flags, mode, aspect-ratio value, output rectangle, record of `resizeFrame`
requests) is unchanged.  In a state in which the flag is set the same call is not a
no-op: it clears the flag. -/
theorem setInSize_stored_size_noop (d : VideoRendererPrivate) (w h : Int)
    (hw : w = d.src_width) (hh : h = d.src_height) :
    (d.aspect_ratio_changed = false → setInSize d w h = d) ∧
    (d.aspect_ratio_changed = true →
      (setInSize d w h).aspect_ratio_changed = false ∧ setInSize d w h ≠ d) := by
  constructor
  · intro hflag
    exact setInSize_same d w h hw.symm hh.symm hflag
  · intro hflag
    have hafter := setInSize_aspect_ratio_changed d w h
    refine ⟨hafter, ?_⟩
    intro heq
    rw [heq, hflag] at hafter
    exact absurd hafter (by decide)

/-- C11, amended, at `setInSize(1920, 1080)` on `playing`, whose flag is clear. -/
theorem setInSize_stored_size_noop_witness : setInSize playing 1920 1080 = playing :=
  (setInSize_stored_size_noop playing 1920 1080 rfl rfl).1 rfl

theorem resizeRenderer_flag_mode (d : VideoRendererPrivate) (w h : Int) :
    (resizeRenderer d w h).aspect_ratio_changed = d.aspect_ratio_changed ∧
    (resizeRenderer d w h).out_aspect_ratio_mode = d.out_aspect_ratio_mode := by
  unfold resizeRenderer computeOutParameters resizeFrame emit
  dsimp only
  split_ifs <;> exact ⟨rfl, rfl⟩

theorem userCallRecognised_run (d : VideoRendererPrivate) (c : GeomCall)
    (hd : UserCallRecognised d) : UserCallRecognised (c.run d) := by
  cases c with
  | setInSize w h => exact Or.inl (setInSize_aspect_ratio_changed d w h)
  | resizeRenderer w h =>
    obtain ⟨h1, h2⟩ := resizeRenderer_flag_mode d w h
    rcases hd with hd | hd
    · exact Or.inl (by show (resizeRenderer d w h).aspect_ratio_changed = false; rw [h1, hd])
    · exact Or.inr (by
        show (resizeRenderer d w h).out_aspect_ratio_mode = _
        rw [h2, hd])
  | setOutAspectRatioMode m =>
    show UserCallRecognised (setOutAspectRatioMode d m)
    by_cases hm : m = d.out_aspect_ratio_mode
    · rw [setOutAspectRatioMode_same d m hm]
      exact hd
    · cases m
      · left
        exact setOutAspectRatioMode_aspect_ratio_changed d (Ne.symm hm)
      · left
        unfold setOutAspectRatioMode
        dsimp only
        rw [if_neg hm, if_neg (by decide), if_pos rfl]
        exact setOutAspectRatio_aspect_ratio_changed _ _
      · right
        exact setOutAspectRatioMode_mode d _
  | setOutAspectRatio r => exact Or.inl (setOutAspectRatio_aspect_ratio_changed d r)

theorem userCallRecognised_runGeomCalls (cs : List GeomCall) (d : VideoRendererPrivate)
    (hd : UserCallRecognised d) : UserCallRecognised (runGeomCalls d cs) := by
  induction cs generalizing d with
  | nil => exact hd
  | cons c cs ih => exact ih (c.run d) (userCallRecognised_run d c hd)

/-- C12, as stated, fails: in a state whose flag `aspect_ratio_changed` is set while the
mode is `VideoAspectRatio`, a direct call `setOutAspectRatio(2)` takes the flag for the
mark of an internal call and leaves the mode `VideoAspectRatio`. -/
theorem direct_setOutAspectRatio_counterexample :
    fresh.aspect_ratio_changed = true ∧
    outAspectRatioMode (setOutAspectRatio fresh 2) = OutAspectRatioMode.VideoAspectRatio ∧
    outAspectRatioMode (setOutAspectRatio fresh 2) ≠ OutAspectRatioMode.CustomAspectRation := by
  have h : outAspectRatioMode (setOutAspectRatio fresh 2) =
      OutAspectRatioMode.VideoAspectRatio := by
    unfold outAspectRatioMode
    rw [setOutAspectRatio_mode]
    rfl
  refine ⟨rfl, h, ?_⟩
  rw [h]
  decide

/-- C12, amended.  Start from any state in which `aspect_ratio_changed` is clear or the
mode is `CustomAspectRation`, and let any finite sequence of geometry calls (`setInSize`,
`resizeRenderer`, `setOutAspectRatioMode`, `setOutAspectRatio`) run.  A direct call
`setOutAspectRatio(r)` made then leaves the mode equal to `CustomAspectRation` and the
stored aspect-ratio value equal to `r`. -/
theorem direct_setOutAspectRatio_custom (d0 : VideoRendererPrivate) (cs : List GeomCall)
    (r : ℚ) (h0 : UserCallRecognised d0) :
    outAspectRatioMode (setOutAspectRatio (runGeomCalls d0 cs) r) =
      OutAspectRatioMode.CustomAspectRation ∧
    outAspectRatio (setOutAspectRatio (runGeomCalls d0 cs) r) = r := by
  have hd := userCallRecognised_runGeomCalls cs d0 h0
  refine ⟨?_, setOutAspectRatio_out_aspect_ratio _ _⟩
  unfold outAspectRatioMode
  rw [setOutAspectRatio_mode]
  rcases hd with hd | hd
  · rw [hd]
    rfl
  · split_ifs
    · exact hd
    · rfl

/-- C12, amended, at `playing` after a resize and a change to `RendererAspectRatio`. -/
theorem direct_setOutAspectRatio_custom_witness :
    outAspectRatioMode
      (setOutAspectRatio
        (runGeomCalls playing
          [GeomCall.resizeRenderer 800 600,
           GeomCall.setOutAspectRatioMode OutAspectRatioMode.RendererAspectRatio])
        (4 / 3)) = OutAspectRatioMode.CustomAspectRation ∧
    outAspectRatio
      (setOutAspectRatio
        (runGeomCalls playing
          [GeomCall.resizeRenderer 800 600,
           GeomCall.setOutAspectRatioMode OutAspectRatioMode.RendererAspectRatio])
        (4 / 3)) = 4 / 3 :=
  direct_setOutAspectRatio_custom playing
    [GeomCall.resizeRenderer 800 600,
     GeomCall.setOutAspectRatioMode OutAspectRatioMode.RendererAspectRatio]
    (4 / 3) (Or.inl rfl)

/-- C20.  For every state and every mode `m`, after `setOutAspectRatioMode(m)` the mode
reported by `outAspectRatioMode()` is `m`: on the two paths that call `setOutAspectRatio`
the flag `aspect_ratio_changed` has just been set, so that call does not retag the mode
as custom. -/
theorem outAspectRatioMode_after_set (d : VideoRendererPrivate) (m : OutAspectRatioMode) :
    outAspectRatioMode (setOutAspectRatioMode d m) = m := by
  unfold outAspectRatioMode
  exact setOutAspectRatioMode_mode d m

/-! ## Claims C14 and C15: a null entry in the chain, and the resolved region -/

/-- C14 at the chain `[null, 7]` with both slots unset: `setOSDFilter(5)` and
`setSubtitleFilter(5)` return null, but `lastIndexOf(old)` with `old == null` finds the
null entry at position 0 and the new filter replaces it; the chain becomes `[5, 7]`
and not `[null, 7, 5]`. -/
theorem set_unset_slot_replaces_null_entry :
    withNull.osd_filter = none ∧ withNull.subtitle_filter = none ∧
    withNull.filters = [none, some 7] ∧
    (setOSDFilter withNull (some 5)).2 = none ∧
    (setOSDFilter withNull (some 5)).1.filters = [some 5, some 7] ∧
    (setOSDFilter withNull (some 5)).1.filters ≠ withNull.filters ++ [some 5] ∧
    (setSubtitleFilter withNull (some 5)).2 = none ∧
    (setSubtitleFilter withNull (some 5)).1.filters = [some 5, some 7] ∧
    (setSubtitleFilter withNull (some 5)).1.filters ≠ withNull.filters ++ [some 5] := by
  refine ⟨rfl, rfl, rfl, rfl, rfl, ?_, rfl, rfl, ?_⟩ <;> decide

theorem qRound_intCast {n : Int} (hn : 0 ≤ n) : qRound (n : ℚ) = n := by
  have hq : (0 : ℚ) ≤ (n : ℚ) := by exact_mod_cast hn
  unfold qRound
  rw [if_pos hq]
  exact toInt_eq_of_bounds hn (by linarith) (by linarith)

theorem realROI_unitRoi : realROI unitRoi = ⟨1920, 1080, 200, 100⟩ := by
  have hq1 : qRound (1 : ℚ) = 1 := by exact_mod_cast @qRound_intCast 1 (by decide)
  have hq2 : qRound (200 : ℚ) = 200 := by
    exact_mod_cast @qRound_intCast 200 (by decide)
  have hq3 : qRound (100 : ℚ) = 100 := by
    exact_mod_cast @qRound_intCast 100 (by decide)
  have hx : toInt ((1 : ℚ) * ((1920 : Int) : ℚ)) = 1920 :=
    toInt_eq_of_bounds (by decide) (by norm_num) (by norm_num)
  have hy : toInt ((1 : ℚ) * ((1080 : Int) : ℚ)) = 1080 :=
    toInt_eq_of_bounds (by decide) (by norm_num) (by norm_num)
  have ha : qAbs (1 : ℚ) ≤ 1 := by unfold qAbs; norm_num
  have hb : ¬ qAbs (200 : ℚ) < 1 := by unfold qAbs; norm_num
  have hc : ¬ (100 : ℚ) < 1 := by norm_num
  have hv : (⟨1, 1, 200, 100⟩ : QRectF).isValid = true := by
    unfold QRectF.isValid
    norm_num
  unfold realROI
  simp only [unitRoi, playing, fresh, hv, Bool.not_true, Bool.false_eq_true, if_false,
    QRectF.toRect, hq1, hq2, hq3, ha, hb, hc, if_true, hx, hy]
  rfl

theorem realROI_halfRoi : realROI halfRoi = ⟨960, 0, 200, 99⟩ := by
  have hq0 : qRound (0 : ℚ) = 0 := by exact_mod_cast @qRound_intCast 0 (by decide)
  have hq1 : qRound (1 / 2 : ℚ) = 1 := by
    unfold qRound
    rw [if_pos (by norm_num)]
    exact toInt_eq_of_bounds (by decide) (by norm_num) (by norm_num)
  have hq2 : qRound (200 : ℚ) = 200 := by
    exact_mod_cast @qRound_intCast 200 (by decide)
  have hq3 : qRound (100 : ℚ) = 100 := by
    exact_mod_cast @qRound_intCast 100 (by decide)
  have hx : toInt ((1 / 2 : ℚ) * ((1920 : Int) : ℚ)) = 960 :=
    toInt_eq_of_bounds (by decide) (by norm_num) (by norm_num)
  have hy : toInt ((0 : ℚ) * ((1080 : Int) : ℚ)) = 0 :=
    toInt_small (by norm_num) (by norm_num)
  have ha : qAbs (1 / 2 : ℚ) ≤ 1 := by unfold qAbs; norm_num
  have ha0 : qAbs (0 : ℚ) ≤ 1 := by unfold qAbs; norm_num
  have hb : ¬ qAbs (200 : ℚ) < 1 := by unfold qAbs; norm_num
  have hc : ¬ (100 : ℚ) < 1 := by norm_num
  have hv : (⟨1 / 2, 0, 200, 100⟩ : QRectF).isValid = true := by
    unfold QRectF.isValid
    norm_num
  unfold realROI
  simp only [halfRoi, playing, fresh, hv, Bool.not_true, Bool.false_eq_true, if_false,
    QRectF.toRect, hq0, hq1, hq2, hq3, ha, ha0, hb, hc, if_true, hx, hy]
  rfl

/-- C15 on a 1920 × 1080 source.  For the region (1, 1, 200, 100) the tests
`qAbs(x) <= 1` and `qAbs(y) <= 1` take x = 1 and y = 1 for fractions: the resolved
rectangle starts at (1920, 1080) and not at pixel (1, 1), and because `setX` / `setY` move
one edge only its width and height become -1719 and -979 instead of 200 and 100.  For the
region (1/2, 0, 200, 100) the fraction x = 1/2 resolves to 960, and the absolute width 200
becomes -759. -/
theorem realROI_components_not_independent :
    unitRoi.roi.isValid = true ∧
    (realROI unitRoi).x = 1920 ∧ (realROI unitRoi).y = 1080 ∧
    (realROI unitRoi).width = -1719 ∧ (realROI unitRoi).height = -979 ∧
    halfRoi.roi.isValid = true ∧
    (realROI halfRoi).x = 960 ∧ (realROI halfRoi).width = -759 ∧
    (realROI halfRoi).height = 100 := by
  have hv1 : unitRoi.roi.isValid = true := by
    show (⟨1, 1, 200, 100⟩ : QRectF).isValid = true
    unfold QRectF.isValid
    norm_num
  have hv2 : halfRoi.roi.isValid = true := by
    show (⟨1 / 2, 0, 200, 100⟩ : QRectF).isValid = true
    unfold QRectF.isValid
    norm_num
  rw [realROI_unitRoi, realROI_halfRoi]
  exact ⟨hv1, rfl, rfl, rfl, rfl, hv2, rfl, rfl, rfl⟩

/-! ## Claims C16 and C17: what `setOutAspectRatio` and `setInSize` touch -/

/-- C16.  After `setOutAspectRatio(r)`: if the resulting mode is not
`RendererAspectRatio`, `update_background` is true; if it is `RendererAspectRatio`,
`update_background` has the value it had before; and `resizeFrame` is requested, once and
with the width and height of the new output rectangle, exactly when `r` differs from the
aspect-ratio value stored before. -/
theorem setOutAspectRatio_background_and_resize (d : VideoRendererPrivate) (r : ℚ) :
    (outAspectRatioMode (setOutAspectRatio d r) ≠ OutAspectRatioMode.RendererAspectRatio →
      (setOutAspectRatio d r).update_background = true) ∧
    (outAspectRatioMode (setOutAspectRatio d r) = OutAspectRatioMode.RendererAspectRatio →
      (setOutAspectRatio d r).update_background = d.update_background) ∧
    (d.out_aspect_ratio ≠ r →
      (setOutAspectRatio d r).trace =
        d.trace ++ [Call.resizeFrame (videoRect (setOutAspectRatio d r)).width
          (videoRect (setOutAspectRatio d r)).height]) ∧
    (d.out_aspect_ratio = r → (setOutAspectRatio d r).trace = d.trace) := by
  unfold outAspectRatioMode videoRect setOutAspectRatio computeOutParameters resizeFrame emit
  dsimp only
  refine ⟨?_, ?_, ?_, ?_⟩
  · intro h
    split_ifs at h ⊢ <;> first | rfl | exact absurd rfl h | simp_all
  · intro h
    split_ifs at h ⊢ <;> first | rfl | simp_all
  · intro h
    split_ifs <;> first | rfl | simp_all
  · intro h
    split_ifs <;> first | rfl | simp_all

/-- C16 on `playing` (ratio 16/9, mode `VideoAspectRatio`, flag clear): a direct call with
4/3 requests one `resizeFrame(426, 320)`, a call with 16/9 requests none. -/
theorem setOutAspectRatio_background_and_resize_witness :
    (setOutAspectRatio playing (4 / 3)).update_background = true ∧
    (setOutAspectRatio playing (4 / 3)).trace =
      [Call.resizeFrame (videoRect (setOutAspectRatio playing (4 / 3))).width
        (videoRect (setOutAspectRatio playing (4 / 3))).height] ∧
    (setOutAspectRatio playing (16 / 9)).trace = [] ∧
    videoRect (setOutAspectRatio playing (4 / 3)) = QRect.mk4 27 0 426 320 :=
  ⟨(setOutAspectRatio_background_and_resize playing (4 / 3)).1 (by
      unfold outAspectRatioMode
      rw [setOutAspectRatio_mode]
      decide),
   (setOutAspectRatio_background_and_resize playing (4 / 3)).2.2.1 (by
      show (16 / 9 : ℚ) ≠ 4 / 3
      norm_num),
   (setOutAspectRatio_background_and_resize playing (16 / 9)).2.2.2 rfl,
   by
    unfold videoRect
    rw [setOutAspectRatio_out_rect]
    norm_num [fitRect, toInt, playing, fresh]
    rfl⟩

/-- C17.  For every state and every `(w, h)` with `h != 0` that differs from the stored
source size, `setInSize(w, h)` stores `src_width = w`, `src_height = h` and
`source_aspect_ratio = w/h`.  In mode `VideoAspectRatio` the aspect-ratio value becomes
`w/h` and the mode stays `VideoAspectRatio`; in any other mode the aspect-ratio value, the
output rectangle, the mode, `update_background` and the record of `resizeFrame` requests
are unchanged. -/
theorem setInSize_new_size (d : VideoRendererPrivate) (w h : Int) (hh : h ≠ 0)
    (hnew : d.src_width ≠ w ∨ d.src_height ≠ h) :
    (setInSize d w h).src_width = w ∧ (setInSize d w h).src_height = h ∧
    (setInSize d w h).source_aspect_ratio = (w : ℚ) / (h : ℚ) ∧
    (d.out_aspect_ratio_mode = OutAspectRatioMode.VideoAspectRatio →
      outAspectRatio (setInSize d w h) = (w : ℚ) / (h : ℚ) ∧
      outAspectRatioMode (setInSize d w h) = OutAspectRatioMode.VideoAspectRatio) ∧
    (d.out_aspect_ratio_mode ≠ OutAspectRatioMode.VideoAspectRatio →
      outAspectRatio (setInSize d w h) = d.out_aspect_ratio ∧
      videoRect (setInSize d w h) = d.out_rect ∧
      outAspectRatioMode (setInSize d w h) = d.out_aspect_ratio_mode ∧
      (setInSize d w h).update_background = d.update_background ∧
      (setInSize d w h).trace = d.trace) := by
  have _ := hh
  have hstore := setInSize_stores d w h
    (hnew.elim Or.inl (fun h2 => Or.inr (Or.inl h2)))
  have hsar := setInSize_source_aspect_ratio d w h
    (hnew.elim (fun h1 => Or.inr (Or.inl h1)) (fun h2 => Or.inr (Or.inr (Or.inl h2))))
  have hcond : d.src_width ≠ w ∨ d.src_height ≠ h := hnew
  refine ⟨hstore.1, hstore.2.1, hsar, ?_, ?_⟩
  · intro hmode
    unfold outAspectRatio outAspectRatioMode setInSize
    dsimp only
    rw [if_pos hcond]
    simp only [Bool.not_true, Bool.false_eq_true, if_false, hmode, if_true]
    refine ⟨setOutAspectRatio_out_aspect_ratio _ _, ?_⟩
    rw [setOutAspectRatio_mode]
    rfl
  · intro hmode
    unfold outAspectRatio outAspectRatioMode videoRect setInSize
    dsimp only
    rw [if_pos hcond]
    simp only [Bool.not_true, Bool.false_eq_true, if_false, hmode, and_self]

/-- C17 at `setInSize(1280, 720)` on `playing` (mode `VideoAspectRatio`) and on
`customMode`. -/
theorem setInSize_new_size_witness :
    (setInSize playing 1280 720).src_width = 1280 ∧
    outAspectRatio (setInSize playing 1280 720) = ((1280 : Int) : ℚ) / ((720 : Int) : ℚ) ∧
    outAspectRatio (setInSize customMode 1280 720) = customMode.out_aspect_ratio ∧
    (setInSize customMode 1280 720).trace = customMode.trace :=
  ⟨(setInSize_new_size playing 1280 720 (by decide) (Or.inl (by decide))).1,
   ((setInSize_new_size playing 1280 720 (by decide) (Or.inl (by decide))).2.2.2.1 rfl).1,
   ((setInSize_new_size customMode 1280 720 (by decide) (Or.inl (by decide))).2.2.2.2
      (by decide)).1,
   ((setInSize_new_size customMode 1280 720 (by decide) (Or.inl (by decide))).2.2.2.2
      (by decide)).2.2.2.2⟩

/-! ## Claims C18 and C19: one paint -/

theorem processFilters_spec (l : List FilterPtr) (d : VideoRendererPrivate) :
    (processFilters d l).trace = d.trace ++ (l.filterMap id).map Call.process ∧
    (processFilters d l).update_background = d.update_background ∧
    (processFilters d l).filters = d.filters := by
  induction l generalizing d with
  | nil => simp [processFilters]
  | cons x xs ih =>
    cases x with
    | none =>
      unfold processFilters
      simpa using ih d
    | some f =>
      unfold processFilters
      obtain ⟨h1, h2, h3⟩ := ih (emit d (Call.process f))
      refine ⟨?_, ?_, ?_⟩
      · rw [h1]
        simp [emit]
      · rw [h2]
        rfl
      · rw [h3]
        rfl

/-- The calls, the flag and the chain after one paint. -/
theorem handlePaintEvent_spec (d : VideoRendererPrivate) :
    (handlePaintEvent d).trace =
      d.trace ++ ([Call.setupQuality] ++
        (if d.update_background then [Call.drawBackground] else []) ++
        (if d.video_frame.valid then [Call.drawFrame] else []) ++
        [Call.pendingTasks] ++ filterStageCalls d) ∧
    (handlePaintEvent d).update_background = false ∧
    (handlePaintEvent d).filters = d.filters := by
  unfold handlePaintEvent filterStageCalls setupQuality needUpdateBackground drawBackground
    needDrawFrame drawFrame hanlePendingTasks emit
  dsimp only
  cases hb : d.update_background <;>
    simp only [Bool.false_eq_true, if_false, if_true] <;>
    cases hv : d.video_frame.valid <;>
    simp only [Bool.false_eq_true, if_false, if_true] <;>
    split_ifs with hc <;>
    first
    | exact ⟨by simp, rfl, rfl⟩
    | (refine ⟨?_, ?_, ?_⟩
       · rw [(processFilters_spec _ _).1]; simp
       · rw [(processFilters_spec _ _).2.1]
       · rw [(processFilters_spec _ _).2.2])

theorem processCalls_append (a b : List Call) :
    processCalls (a ++ b) = processCalls a ++ processCalls b := by
  induction a with
  | nil => rfl
  | cons c cs ih => cases c <;> simp [processCalls, ih]

theorem processCalls_map_process (l : List Nat) :
    processCalls (l.map Call.process) = l := by
  induction l with
  | nil => rfl
  | cons x xs ih => simp [processCalls, ih]

/-- C18.  One paint records, after `setupQuality`: `drawBackground` exactly when
`update_background` was set, then `drawFrame` exactly when the current frame is valid
(whether or not the background was drawn: there is no early return), then the drain of
the pending tasks, then the `process` calls of the filter stage, in this order; and
`update_background` is false after the paint. -/
theorem paint_draws_background_then_frame (d : VideoRendererPrivate) :
    (handlePaintEvent d).trace =
      d.trace ++ ([Call.setupQuality] ++
        (if needUpdateBackground d then [Call.drawBackground] else []) ++
        (if needDrawFrame d then [Call.drawFrame] else []) ++
        [Call.pendingTasks] ++ filterStageCalls d) ∧
    (∀ c ∈ filterStageCalls d, ∃ f, c = Call.process f) ∧
    needUpdateBackground (handlePaintEvent d) = false := by
  obtain ⟨h1, h2, _⟩ := handlePaintEvent_spec d
  refine ⟨h1, ?_, h2⟩
  intro c hc
  unfold filterStageCalls at hc
  split_ifs at hc
  · obtain ⟨f, _, hf⟩ := List.mem_map.mp hc
    exact ⟨f, hf.symm⟩
  · simp at hc

/-- C19.  With a filter context and statistics present, the `process` calls recorded by
one paint name exactly the non-null entries of the filter sequence, each once and in the
order of the sequence; they are the last calls of the paint; and the sequence itself is
the same after the paint. -/
theorem paint_processes_non_null_filters (d : VideoRendererPrivate)
    (hctx : d.filter_context = true) (hstat : d.statistics = true) :
    processCalls ((handlePaintEvent d).trace.drop d.trace.length) = d.filters.filterMap id ∧
    (∃ before, processCalls before = [] ∧
      (handlePaintEvent d).trace =
        d.trace ++ before ++ (d.filters.filterMap id).map Call.process) ∧
    (handlePaintEvent d).filters = d.filters := by
  obtain ⟨h1, _, h3⟩ := handlePaintEvent_spec d
  have hstage : filterStageCalls d = (d.filters.filterMap id).map Call.process := by
    unfold filterStageCalls
    rw [hctx, hstat]
    cases hl : d.filters with
    | nil => simp
    | cons x xs => simp
  have hbefore : processCalls ([Call.setupQuality] ++
      (if d.update_background then [Call.drawBackground] else []) ++
      (if d.video_frame.valid then [Call.drawFrame] else []) ++ [Call.pendingTasks]) = [] := by
    cases d.update_background <;> cases d.video_frame.valid <;> rfl
  rw [hstage] at h1
  refine ⟨?_, ⟨_, hbefore, ?_⟩, h3⟩
  · rw [h1, List.drop_left, processCalls_append, hbefore, processCalls_map_process]
    rfl
  · rw [h1]
    simp only [List.append_assoc]

/-- C19 on `painting`: background pending, valid frame, chain `[1, null, 2]`, filter
context and statistics present. -/
theorem paint_processes_non_null_filters_witness :
    processCalls ((handlePaintEvent painting).trace.drop painting.trace.length) = [1, 2] ∧
    (handlePaintEvent painting).trace =
      [Call.setupQuality, Call.drawBackground, Call.drawFrame, Call.pendingTasks,
       Call.process 1, Call.process 2] ∧
    (handlePaintEvent painting).filters = [some 1, none, some 2] :=
  ⟨(paint_processes_non_null_filters painting rfl rfl).1, rfl,
   (paint_processes_non_null_filters painting rfl rfl).2.2⟩

end QtAV
